import Mathlib

/-!
Verification of the pixi manifest schema model (`schema/model.py`).

The Python source defines a closed-world ("extra = forbid") pydantic data
model for a project manifest: a tree of entities (Project, Channel,
MatchSpec, PyPI requirement, Task, LibcFamily, SystemRequirements,
Environment, Activation, Target, Feature, and the root BaseManifest),
each validated from a raw structured document.  This file gives a shallow
embedding of that model: raw documents are an inductive `RawValue`,
validation of each entity is an executable function returning either the
fully constructed value or a list of violations, and serialization back to
the raw document form is an executable `dump` per entity.  The theorems at
the end settle the specification claims about the model.
-/

/-- The violation kinds of the error taxonomy (section 7 of the spec):
missing required field, undeclared key under the closed-world rule, scalar
constraint failure, polymorphic-shape failure, and structural kind
mismatch. -/
inductive ViolationKind where
  | MissingField
  | UnknownField
  | ConstraintViolation
  | ShapeMismatch
  | TypeMismatch
deriving DecidableEq, Repr

/-- A single validation violation: the path of key segments from the
document root, together with the violation kind. -/
structure Violation where
  path : List String
  kind : ViolationKind
deriving DecidableEq, Repr

/-- A raw structured document node, as handed to the validator by the
document-format parser: scalars (string, float, integer, boolean), ordered
lists, and key/value tables. -/
inductive RawValue where
  | str (s : String)
  | float (q : Rat)
  | int (n : Int)
  | bool (b : Bool)
  | list (xs : List RawValue)
  | table (kvs : List (String × RawValue))

/-- Result of validating one raw node: the fully constructed value, or the
aggregated list of violations.  A failed validation never carries a
partially constructed value. -/
inductive Validated (α : Type) where
  | ok (a : α)
  | err (es : List Violation)
deriving DecidableEq, Repr

namespace Validated

/-- The violation list of a result (empty on success). -/
def errors : Validated α → List Violation
  | .ok _ => []
  | .err es => es

/-- Whether a result is a success. -/
def isOk : Validated α → Bool
  | .ok _ => true
  | .err _ => false

/-- Map over a successful result. -/
def vmap (f : α → β) : Validated α → Validated β
  | .ok a => .ok (f a)
  | .err es => .err es

/-- Error-accumulating application: both sides are always evaluated and
their violation lists concatenated, so validation never stops at the first
problem. -/
def vseq : Validated (α → β) → Validated α → Validated β
  | .ok f, .ok a => .ok (f a)
  | .ok _, .err es => .err es
  | .err es, .ok _ => .err es
  | .err es, .err es2 => .err (es ++ es2)

/-- Prepend a list of violations (the unknown-key violations of an entity)
onto a result; a nonempty prefix forces failure. -/
def withErrors (pre : List Violation) (v : Validated α) : Validated α :=
  match pre with
  | [] => v
  | _ :: _ => .err (pre ++ v.errors)

@[simp] theorem errors_ok (a : α) : (Validated.ok a).errors = [] := rfl

@[simp] theorem errors_err (es : List Violation) :
    (Validated.err (α := α) es).errors = es := rfl

@[simp] theorem isOk_ok (a : α) : (Validated.ok a).isOk = true := rfl

@[simp] theorem isOk_err (es : List Violation) :
    (Validated.err (α := α) es).isOk = false := rfl

@[simp] theorem errors_vseq (f : Validated (α → β)) (x : Validated α) :
    (vseq f x).errors = f.errors ++ x.errors := by
  cases f <;> cases x <;> simp [vseq, errors]

@[simp] theorem errors_vmap (f : α → β) (x : Validated α) :
    (vmap f x).errors = x.errors := by
  cases x <;> simp [vmap, errors]

@[simp] theorem errors_withErrors (pre : List Violation) (v : Validated α) :
    (withErrors pre v).errors = pre ++ v.errors := by
  cases pre <;> simp [withErrors, errors]

theorem vseq_ok {f : Validated (α → β)} {x : Validated α} {b : β}
    (h : vseq f x = .ok b) : ∃ g a, f = .ok g ∧ x = .ok a ∧ b = g a := by
  cases f with
  | ok g =>
    cases x with
    | ok a => exact ⟨g, a, rfl, rfl, by simpa [vseq] using h.symm⟩
    | err es => simp [vseq] at h
  | err es => cases x <;> simp [vseq] at h

theorem vmap_ok {f : α → β} {x : Validated α} {b : β}
    (h : vmap f x = .ok b) : ∃ a, x = .ok a ∧ b = f a := by
  cases x with
  | ok a => exact ⟨a, rfl, by simpa [vmap] using h.symm⟩
  | err es => simp [vmap] at h

theorem withErrors_ok {pre : List Violation} {v : Validated α} {a : α}
    (h : withErrors pre v = .ok a) : pre = [] ∧ v = .ok a := by
  cases pre with
  | nil => exact ⟨rfl, h⟩
  | cons x xs => simp [withErrors] at h

theorem withErrors_err_mem {x : Violation} {pre : List Violation} (hx : x ∈ pre)
    (v : Validated α) : ∃ es, withErrors pre v = .err es ∧ x ∈ es := by
  cases pre with
  | nil => cases hx
  | cons p ps =>
    exact ⟨(p :: ps) ++ v.errors, rfl, List.mem_append_left _ hx⟩

end Validated

/-- Look up a key in a raw table (first occurrence wins). -/
def lookupKey (kvs : List (String × RawValue)) (k : String) : Option RawValue :=
  match kvs with
  | [] => none
  | (k', v) :: rest => if k' = k then some v else lookupKey rest k

@[simp] theorem lookupKey_nil (k : String) : lookupKey [] k = none := rfl

theorem lookupKey_cons (k' k : String) (v : RawValue) (rest : List (String × RawValue)) :
    lookupKey ((k', v) :: rest) k = if k' = k then some v else lookupKey rest k := rfl

theorem lookupKey_append (xs ys : List (String × RawValue)) (k : String) :
    lookupKey (xs ++ ys) k =
      match lookupKey xs k with
      | some v => some v
      | none => lookupKey ys k := by
  induction xs with
  | nil => simp [lookupKey]
  | cons p rest ih =>
    obtain ⟨k', v⟩ := p
    by_cases h : k' = k <;> simp [lookupKey, h, ih]

/-- The unknown-key violations of a raw table with respect to a declared
field list: one `UnknownField` violation per undeclared key, in input
order (the closed-world, "extra = forbid" check). -/
def unknownErrs (path : List String) (declared : List String)
    (kvs : List (String × RawValue)) : List Violation :=
  ((kvs.map Prod.fst).filter (fun k => !(declared.contains k))).map
    (fun k => ⟨path ++ [k], ViolationKind.UnknownField⟩)

theorem mem_unknownErrs {path declared : List String} {kvs : List (String × RawValue)}
    {k : String} {v : RawValue} (hmem : (k, v) ∈ kvs) (hk : k ∉ declared) :
    (⟨path ++ [k], ViolationKind.UnknownField⟩ : Violation) ∈ unknownErrs path declared kvs := by
  unfold unknownErrs
  apply List.mem_map_of_mem
  apply List.mem_filter.mpr
  refine ⟨List.mem_map_of_mem Prod.fst hmem, ?_⟩
  simpa using hk

@[simp] theorem unknownErrs_append (path declared : List String)
    (xs ys : List (String × RawValue)) :
    unknownErrs path declared (xs ++ ys) =
      unknownErrs path declared xs ++ unknownErrs path declared ys := by
  simp [unknownErrs]

@[simp] theorem unknownErrs_nil (path declared : List String) :
    unknownErrs path declared [] = [] := rfl

theorem unknownErrs_cons_declared {declared : List String} {k : String}
    (path : List String) (v : RawValue) (kvs : List (String × RawValue))
    (hk : k ∈ declared) :
    unknownErrs path declared ((k, v) :: kvs) = unknownErrs path declared kvs := by
  simp [unknownErrs, hk]

/-- A required field: absent keys produce a `MissingField` violation at the
field's path; present keys delegate to the field validator. -/
def reqField (path : List String) (kvs : List (String × RawValue)) (name : String)
    (f : List String → RawValue → Validated α) : Validated α :=
  match lookupKey kvs name with
  | none => .err [⟨path ++ [name], ViolationKind.MissingField⟩]
  | some v => f (path ++ [name]) v

/-- An optional field: an absent key resolves to the distinguished absent
state `none` (not an empty collection); present keys delegate to the field
validator. -/
def optField (path : List String) (kvs : List (String × RawValue)) (name : String)
    (f : List String → RawValue → Validated α) : Validated (Option α) :=
  match lookupKey kvs name with
  | none => .ok none
  | some v => (f (path ++ [name]) v).vmap some

theorem optField_of_lookup_none {path : List String} {kvs : List (String × RawValue)}
    {name : String} {f : List String → RawValue → Validated α}
    (h : lookupKey kvs name = none) : optField path kvs name f = .ok none := by
  simp [optField, h]

theorem reqField_errors_length (path : List String) (kvs : List (String × RawValue))
    (name : String) (f : List String → RawValue → Validated α) :
    (reqField path kvs name f).errors.length ≥
      (if (lookupKey kvs name).isNone then 1 else 0) := by
  rcases h : lookupKey kvs name with _ | v <;>
    simp [reqField, h, Validated.errors]

theorem optField_ok {path : List String} {kvs : List (String × RawValue)}
    {name : String} {f : List String → RawValue → Validated α} {o : Option α}
    (h : optField path kvs name f = .ok o) :
    o = none ∨ ∃ x v, o = some x ∧ lookupKey kvs name = some v ∧
      f (path ++ [name]) v = .ok x := by
  rcases hl : lookupKey kvs name with _ | v
  · simp [optField, hl] at h
    exact Or.inl h.symm
  · simp only [optField, hl] at h
    obtain ⟨a, ha, rfl⟩ := Validated.vmap_ok h
    exact Or.inr ⟨a, v, rfl, rfl, ha⟩

theorem reqField_ok {path : List String} {kvs : List (String × RawValue)}
    {name : String} {f : List String → RawValue → Validated α} {x : α}
    (h : reqField path kvs name f = .ok x) :
    ∃ v, lookupKey kvs name = some v ∧ f (path ++ [name]) v = .ok x := by
  rcases hl : lookupKey kvs name with _ | v
  · simp [reqField, hl] at h
  · exact ⟨v, rfl, by simpa [reqField, hl] using h⟩

/-! ### Scalar constraint validators (section 4.1 of the spec)

Each mirrors one primitive constraint of `schema/model.py`:
`NonEmptyStr = constr(min_length=1)`,
`PathNoBackslash = constr(pattern=r"^[^\x5c\x5c]+$")`,
`AnyHttpUrl` (pydantic absolute http/https URL), and plain `int`. -/

/-- The constraint `constr(min_length=1)`: any string of length at least one; anything
that is not a string is a type mismatch. -/
def vNonEmptyStr (path : List String) : RawValue → Validated String
  | .str s => if s = "" then .err [⟨path, ViolationKind.ConstraintViolation⟩] else .ok s
  | _ => .err [⟨path, ViolationKind.TypeMismatch⟩]

/-- Whether a string contains no backslash character. -/
def noBackslash (s : String) : Bool := s.data.all (fun c => c != '\\')

/-- The pattern of `PathNoBackslash`: one or more characters, none of them
a backslash.  Note the `+` in the pattern: the empty string does NOT
match. -/
def vPathNoBackslash (path : List String) : RawValue → Validated String
  | .str s =>
      if s ≠ "" ∧ noBackslash s then .ok s
      else .err [⟨path, ViolationKind.ConstraintViolation⟩]
  | _ => .err [⟨path, ViolationKind.TypeMismatch⟩]

/-- Whether the first character list is a prefix of the second. -/
def charListPre : List Char → List Char → Bool
  | [], _ => true
  | _ :: _, [] => false
  | c :: cs, d :: ds => c == d && charListPre cs ds

/-- Whether a string parses as an absolute HTTP/HTTPS URL (pydantic
`AnyHttpUrl`): an `http://` or `https://` scheme followed by a nonempty
remainder. -/
def isHttpUrl (s : String) : Bool :=
  (charListPre "http://".data s.data && decide (7 < s.data.length)) ||
  (charListPre "https://".data s.data && decide (8 < s.data.length))

/-- The constraint `AnyHttpUrl`: accepts exactly the absolute HTTP/HTTPS URL strings. -/
def vHttpUrl (path : List String) : RawValue → Validated String
  | .str s =>
      if isHttpUrl s then .ok s else .err [⟨path, ViolationKind.ConstraintViolation⟩]
  | _ => .err [⟨path, ViolationKind.TypeMismatch⟩]

/-- A plain `int` field (the `priority` of a channel table). -/
def vInt (path : List String) : RawValue → Validated Int
  | .int n => .ok n
  | _ => .err [⟨path, ViolationKind.TypeMismatch⟩]

/-- The union `NonEmptyStr | AnyHttpUrl` (the `channel` key of a channel
table): since every URL is in particular a nonempty string, the union
accepts exactly the nonempty strings; when no alternative matches the
result is a shape mismatch. -/
def vChannelRef (path : List String) : RawValue → Validated String
  | .str s => if s = "" then .err [⟨path, ViolationKind.ShapeMismatch⟩] else .ok s
  | _ => .err [⟨path, ViolationKind.ShapeMismatch⟩]

theorem vNonEmptyStr_sound {path : List String} {r : RawValue} {s : String}
    (h : vNonEmptyStr path r = .ok s) : s ≠ "" := by
  cases r
  case str t =>
    simp only [vNonEmptyStr] at h
    split at h
    · simp at h
    · cases h; assumption
  all_goals simp [vNonEmptyStr] at h

theorem vNonEmptyStr_complete {s : String} (path : List String) (h : s ≠ "") :
    vNonEmptyStr path (.str s) = .ok s := by
  simp [vNonEmptyStr, h]

theorem vPathNoBackslash_sound {path : List String} {r : RawValue} {s : String}
    (h : vPathNoBackslash path r = .ok s) : s ≠ "" ∧ noBackslash s = true := by
  cases r
  case str t =>
    simp only [vPathNoBackslash] at h
    split at h
    · cases h; assumption
    · simp at h
  all_goals simp [vPathNoBackslash] at h

theorem vPathNoBackslash_complete {s : String} (path : List String)
    (h : s ≠ "" ∧ noBackslash s = true) : vPathNoBackslash path (.str s) = .ok s := by
  simp [vPathNoBackslash, h.1, h.2]

theorem vHttpUrl_sound {path : List String} {r : RawValue} {s : String}
    (h : vHttpUrl path r = .ok s) : isHttpUrl s = true := by
  cases r
  case str t =>
    simp only [vHttpUrl] at h
    split at h
    · cases h; assumption
    · simp at h
  all_goals simp [vHttpUrl] at h

theorem vHttpUrl_complete {s : String} (path : List String)
    (h : isHttpUrl s = true) : vHttpUrl path (.str s) = .ok s := by
  simp [vHttpUrl, h]

theorem vInt_ok {path : List String} {r : RawValue} {n : Int}
    (h : vInt path r = .ok n) : r = .int n := by
  cases r
  case int m =>
    simp only [vInt] at h
    cases h; rfl
  all_goals simp [vInt] at h

theorem vInt_complete (path : List String) (n : Int) : vInt path (.int n) = .ok n := rfl

theorem vChannelRef_sound {path : List String} {r : RawValue} {s : String}
    (h : vChannelRef path r = .ok s) : s ≠ "" := by
  cases r
  case str t =>
    simp only [vChannelRef] at h
    split at h
    · simp at h
    · cases h; assumption
  all_goals simp [vChannelRef] at h

theorem vChannelRef_complete {s : String} (path : List String) (h : s ≠ "") :
    vChannelRef path (.str s) = .ok s := by
  simp [vChannelRef, h]

/-! ### Lists and keyed mappings -/

/-- Validate every element of a raw list (index appended to the error
path), accumulating violations across all elements. -/
def vElems (f : List String → RawValue → Validated α) (path : List String) :
    Nat → List RawValue → Validated (List α)
  | _, [] => .ok []
  | i, v :: rest =>
      Validated.vseq (Validated.vseq (.ok List.cons) (f (path ++ [toString i]) v))
        (vElems f path (i + 1) rest)

/-- A homogeneous list field (`list[...]`): anything but a raw list is a
type mismatch. -/
def vList (f : List String → RawValue → Validated α) (path : List String) :
    RawValue → Validated (List α)
  | .list xs => vElems f path 0 xs
  | _ => .err [⟨path, ViolationKind.TypeMismatch⟩]

/-- A mapping key (`CondaPackageName`, `TaskName`, ...): a nonempty
string. -/
def vKeyNonEmpty (path : List String) (k : String) : Validated String :=
  if k = "" then .err [⟨path ++ [k], ViolationKind.ConstraintViolation⟩] else .ok k

/-- Validate every entry of a raw table as a keyed mapping (`dict[K, V]`),
accumulating violations across all entries. -/
def vDictEntries (f : List String → RawValue → Validated α) (path : List String) :
    List (String × RawValue) → Validated (List (String × α))
  | [] => .ok []
  | (k, v) :: rest =>
      Validated.vseq
        (Validated.vseq (.ok List.cons)
          (Validated.vseq (Validated.vseq (.ok Prod.mk) (vKeyNonEmpty path k))
            (f (path ++ [k]) v)))
        (vDictEntries f path rest)

/-- A keyed mapping field (`dict[K, V]`): anything but a raw table is a
type mismatch. -/
def vDict (f : List String → RawValue → Validated α) (path : List String) :
    RawValue → Validated (List (String × α))
  | .table kvs => vDictEntries f path kvs
  | _ => .err [⟨path, ViolationKind.TypeMismatch⟩]

/-- Serialize a keyed mapping back to a raw table. -/
def dumpDict (g : α → RawValue) (l : List (String × α)) : RawValue :=
  .table (l.map (fun p => (p.1, g p.2)))

theorem vElems_sound {f : List String → RawValue → Validated α} {P : α → Prop}
    (hf : ∀ p v x, f p v = .ok x → P x) (path : List String) :
    ∀ (xs : List RawValue) (i : Nat) (l : List α),
      vElems f path i xs = .ok l → ∀ x ∈ l, P x := by
  intro xs
  induction xs with
  | nil =>
    intro i l h x hx
    simp only [vElems] at h
    cases h
    cases hx
  | cons v rest ih =>
    intro i l h x hx
    simp only [vElems] at h
    obtain ⟨g1, tail, hg1, htail, rfl⟩ := Validated.vseq_ok h
    obtain ⟨g2, hd, hg2, hhd, rfl⟩ := Validated.vseq_ok hg1
    cases hg2
    rcases List.mem_cons.mp hx with rfl | hxt
    · exact hf _ _ _ hhd
    · exact ih (i + 1) tail htail x hxt

theorem vElems_complete {f : List String → RawValue → Validated α} {g : α → RawValue} :
    ∀ (xs : List α), (∀ x ∈ xs, ∀ p, f p (g x) = .ok x) →
      ∀ (path : List String) (i : Nat), vElems f path i (xs.map g) = .ok xs := by
  intro xs
  induction xs with
  | nil => intro _ path i; rfl
  | cons x rest ih =>
    intro h path i
    have hx := h x (by simp) (path ++ [toString i])
    have hrest := ih (fun y hy p => h y (by simp [hy]) p) path (i + 1)
    simp only [List.map_cons, vElems, hx, hrest, Validated.vseq]

theorem vList_sound {f : List String → RawValue → Validated α} {P : α → Prop}
    (hf : ∀ p v x, f p v = .ok x → P x) {path : List String} {r : RawValue}
    {l : List α} (h : vList f path r = .ok l) : ∀ x ∈ l, P x := by
  cases r
  case list xs => exact vElems_sound hf path xs 0 l h
  all_goals simp [vList] at h

theorem vList_complete {f : List String → RawValue → Validated α} {g : α → RawValue}
    {xs : List α} (h : ∀ x ∈ xs, ∀ p, f p (g x) = .ok x) (path : List String) :
    vList f path (.list (xs.map g)) = .ok xs :=
  vElems_complete xs h path 0

theorem vDictEntries_sound {f : List String → RawValue → Validated α} {P : α → Prop}
    (hf : ∀ p v x, f p v = .ok x → P x) (path : List String) :
    ∀ (kvs : List (String × RawValue)) (l : List (String × α)),
      vDictEntries f path kvs = .ok l → ∀ p ∈ l, p.1 ≠ "" ∧ P p.2 := by
  intro kvs
  induction kvs with
  | nil =>
    intro l h p hp
    simp only [vDictEntries] at h
    cases h
    cases hp
  | cons kv rest ih =>
    obtain ⟨k, v⟩ := kv
    intro l h p hp
    simp only [vDictEntries] at h
    obtain ⟨g1, tail, hg1, htail, rfl⟩ := Validated.vseq_ok h
    obtain ⟨g2, hd, hg2, hhd, rfl⟩ := Validated.vseq_ok hg1
    cases hg2
    obtain ⟨g3, xval, hg3, hx, rfl⟩ := Validated.vseq_ok hhd
    obtain ⟨g4, kval, hg4, hk, rfl⟩ := Validated.vseq_ok hg3
    cases hg4
    rcases List.mem_cons.mp hp with rfl | hpt
    · refine ⟨?_, hf _ _ _ hx⟩
      simp only [vKeyNonEmpty] at hk
      split at hk
      · simp at hk
      · cases hk; assumption
    · exact ih tail htail p hpt

theorem vDictEntries_complete {f : List String → RawValue → Validated α}
    {g : α → RawValue} :
    ∀ (l : List (String × α)),
      (∀ p ∈ l, p.1 ≠ "" ∧ ∀ pa, f pa (g p.2) = .ok p.2) →
      ∀ (path : List String),
        vDictEntries f path (l.map (fun p => (p.1, g p.2))) = .ok l := by
  intro l
  induction l with
  | nil => intro _ path; rfl
  | cons p rest ih =>
    intro h path
    obtain ⟨hk, hv⟩ := h p (by simp)
    have hval := hv (path ++ [p.1])
    have hrest := ih (fun q hq => h q (by simp [hq])) path
    simp [List.map_cons, vDictEntries, hval, hrest, vKeyNonEmpty, hk, Validated.vseq]

theorem vDict_sound {f : List String → RawValue → Validated α} {P : α → Prop}
    (hf : ∀ p v x, f p v = .ok x → P x) {path : List String} {r : RawValue}
    {l : List (String × α)} (h : vDict f path r = .ok l) :
    ∀ p ∈ l, p.1 ≠ "" ∧ P p.2 := by
  cases r
  case table kvs => exact vDictEntries_sound hf path kvs l h
  all_goals simp [vDict] at h

theorem vDict_complete {f : List String → RawValue → Validated α} {g : α → RawValue}
    {l : List (String × α)} (h : ∀ p ∈ l, p.1 ≠ "" ∧ ∀ pa, f pa (g p.2) = .ok p.2)
    (path : List String) : vDict f path (dumpDict g l) = .ok l :=
  vDictEntries_complete l h path

/-! ### Polymorphic scalar unions (section 4.2 of the spec)

Alternatives are tried in declared order; an input matching none of the
alternatives is a `ShapeMismatch`. -/

/-- Value of a `list[NonEmptyStr] | NonEmptyStr` field (`cmd` and the
task-dependency list of a task table). -/
inductive StrsOrStr where
  | strs (xs : List String)
  | str (s : String)
deriving DecidableEq, Repr

/-- Value of a `float | NonEmptyStr` field (libc/cuda versions).  Floats
are embedded as rationals. -/
inductive FloatOrStr where
  | float (q : Rat)
  | str (s : String)
deriving DecidableEq, Repr

/-- Value of a `bool | NonEmptyStr` field (the `unix` system
requirement). -/
inductive BoolOrStr where
  | bool (b : Bool)
  | str (s : String)
deriving DecidableEq, Repr

/-- The union `list[NonEmptyStr] | NonEmptyStr`: a raw list resolves to the list
alternative, a nonempty string to the string alternative. -/
def vStrsOrStr (path : List String) : RawValue → Validated StrsOrStr
  | .list xs => (vElems vNonEmptyStr path 0 xs).vmap StrsOrStr.strs
  | .str s =>
      if s = "" then .err [⟨path, ViolationKind.ShapeMismatch⟩]
      else .ok (StrsOrStr.str s)
  | _ => .err [⟨path, ViolationKind.ShapeMismatch⟩]

/-- The union `float | NonEmptyStr`: raw floats (and, by numeric coercion, raw
integers) resolve to the float alternative, nonempty strings to the
string alternative. -/
def vFloatOrStr (path : List String) : RawValue → Validated FloatOrStr
  | .float q => .ok (FloatOrStr.float q)
  | .int n => .ok (FloatOrStr.float (n : Rat))
  | .str s =>
      if s = "" then .err [⟨path, ViolationKind.ShapeMismatch⟩]
      else .ok (FloatOrStr.str s)
  | _ => .err [⟨path, ViolationKind.ShapeMismatch⟩]

/-- The union `PositiveFloat | NonEmptyStr` (the `linux` and `macos` system
requirements): the float alternative additionally requires the value to be
strictly positive. -/
def vPosFloatOrStr (path : List String) : RawValue → Validated FloatOrStr
  | .float q =>
      if 0 < q then .ok (FloatOrStr.float q)
      else .err [⟨path, ViolationKind.ShapeMismatch⟩]
  | .int n =>
      if 0 < n then .ok (FloatOrStr.float (n : Rat))
      else .err [⟨path, ViolationKind.ShapeMismatch⟩]
  | .str s =>
      if s = "" then .err [⟨path, ViolationKind.ShapeMismatch⟩]
      else .ok (FloatOrStr.str s)
  | _ => .err [⟨path, ViolationKind.ShapeMismatch⟩]

/-- The union `bool | NonEmptyStr` (the `unix` system requirement). -/
def vBoolOrStr (path : List String) : RawValue → Validated BoolOrStr
  | .bool b => .ok (BoolOrStr.bool b)
  | .str s =>
      if s = "" then .err [⟨path, ViolationKind.ShapeMismatch⟩]
      else .ok (BoolOrStr.str s)
  | _ => .err [⟨path, ViolationKind.ShapeMismatch⟩]

def StrsOrStr.dump : StrsOrStr → RawValue
  | .strs xs => .list (xs.map RawValue.str)
  | .str s => .str s

def FloatOrStr.dump : FloatOrStr → RawValue
  | .float q => .float q
  | .str s => .str s

def BoolOrStr.dump : BoolOrStr → RawValue
  | .bool b => .bool b
  | .str s => .str s

/-- Structural invariant of a validated `list[NonEmptyStr] | NonEmptyStr`
value. -/
def StrsOrStr.Valid : StrsOrStr → Prop
  | .strs xs => ∀ s ∈ xs, s ≠ ""
  | .str s => s ≠ ""

/-- Structural invariant of a validated `float | NonEmptyStr` value. -/
def FloatOrStr.ValidAny : FloatOrStr → Prop
  | .float _ => True
  | .str s => s ≠ ""

/-- Structural invariant of a validated `PositiveFloat | NonEmptyStr`
value. -/
def FloatOrStr.ValidPos : FloatOrStr → Prop
  | .float q => 0 < q
  | .str s => s ≠ ""

/-- Structural invariant of a validated `bool | NonEmptyStr` value. -/
def BoolOrStr.Valid : BoolOrStr → Prop
  | .bool _ => True
  | .str s => s ≠ ""

theorem vStrsOrStr_sound {path : List String} {r : RawValue} {x : StrsOrStr}
    (h : vStrsOrStr path r = .ok x) : x.Valid := by
  cases r
  case str t =>
    simp only [vStrsOrStr] at h
    split at h
    · simp at h
    · cases h; exact (by assumption : t ≠ "")
  case list xs =>
    simp only [vStrsOrStr] at h
    obtain ⟨l, hl, rfl⟩ := Validated.vmap_ok h
    exact vElems_sound (fun p v s hs => vNonEmptyStr_sound hs) path xs 0 l hl
  all_goals simp [vStrsOrStr] at h

theorem vStrsOrStr_complete {x : StrsOrStr} (hx : x.Valid) (path : List String) :
    vStrsOrStr path x.dump = .ok x := by
  cases x with
  | strs xs =>
    have := vElems_complete (f := vNonEmptyStr) (g := RawValue.str) xs
      (fun s hs p => vNonEmptyStr_complete p (hx s hs)) path 0
    simp [StrsOrStr.dump, vStrsOrStr, this, Validated.vmap]
  | str s =>
    have hs : s ≠ "" := hx
    simp [StrsOrStr.dump, vStrsOrStr, hs]

theorem vFloatOrStr_sound {path : List String} {r : RawValue} {x : FloatOrStr}
    (h : vFloatOrStr path r = .ok x) : x.ValidAny := by
  cases r
  case float q => cases h; trivial
  case int n => cases h; trivial
  case str t =>
    simp only [vFloatOrStr] at h
    split at h
    · simp at h
    · cases h; exact (by assumption : t ≠ "")
  all_goals simp [vFloatOrStr] at h

theorem vFloatOrStr_complete {x : FloatOrStr} (hx : x.ValidAny) (path : List String) :
    vFloatOrStr path x.dump = .ok x := by
  cases x with
  | float q => rfl
  | str s =>
    have hs : s ≠ "" := hx
    simp [FloatOrStr.dump, vFloatOrStr, hs]

theorem vPosFloatOrStr_sound {path : List String} {r : RawValue} {x : FloatOrStr}
    (h : vPosFloatOrStr path r = .ok x) : x.ValidPos := by
  cases r
  case float q =>
    simp only [vPosFloatOrStr] at h
    split at h
    · cases h; exact (by assumption : (0 : Rat) < q)
    · simp at h
  case int n =>
    simp only [vPosFloatOrStr] at h
    split at h
    · cases h
      have hn : (0 : Int) < n := by assumption
      show (0 : Rat) < (n : Rat)
      exact_mod_cast hn
    · simp at h
  case str t =>
    simp only [vPosFloatOrStr] at h
    split at h
    · simp at h
    · cases h; exact (by assumption : t ≠ "")
  all_goals simp [vPosFloatOrStr] at h

theorem vPosFloatOrStr_complete {x : FloatOrStr} (hx : x.ValidPos) (path : List String) :
    vPosFloatOrStr path x.dump = .ok x := by
  cases x with
  | float q =>
    have hq : (0 : Rat) < q := hx
    simp [FloatOrStr.dump, vPosFloatOrStr, hq]
  | str s =>
    have hs : s ≠ "" := hx
    simp [FloatOrStr.dump, vPosFloatOrStr, hs]

theorem vBoolOrStr_sound {path : List String} {r : RawValue} {x : BoolOrStr}
    (h : vBoolOrStr path r = .ok x) : x.Valid := by
  cases r
  case bool b => cases h; trivial
  case str t =>
    simp only [vBoolOrStr] at h
    split at h
    · simp at h
    · cases h; exact (by assumption : t ≠ "")
  all_goals simp [vBoolOrStr] at h

theorem vBoolOrStr_complete {x : BoolOrStr} (hx : x.Valid) (path : List String) :
    vBoolOrStr path x.dump = .ok x := by
  cases x with
  | bool b => rfl
  | str s =>
    have hs : s ≠ "" := hx
    simp [BoolOrStr.dump, vBoolOrStr, hs]

/-! ### Serialization helpers

`dump` functions rebuild the raw document form of a validated value.  An
absent optional field is omitted from the table (the raw document format
has no null), so `dumpOpt` contributes nothing for `none`. -/

/-- The raw-table segment of one optional field: nothing when absent, a
single binding when present. -/
def dumpOpt (k : String) (o : Option RawValue) : List (String × RawValue) :=
  match o with
  | none => []
  | some v => [(k, v)]

@[simp] theorem lookupKey_dumpOpt_self (k : String) (o : Option RawValue) :
    lookupKey (dumpOpt k o) k = o := by
  cases o <;> simp [dumpOpt, lookupKey]

@[simp] theorem lookupKey_dumpOpt_ne {k' k : String} (h : k' ≠ k) (o : Option RawValue) :
    lookupKey (dumpOpt k' o) k = none := by
  cases o <;> simp [dumpOpt, lookupKey, h]

@[simp] theorem lookupKey_append_right {xs : List (String × RawValue)} {k : String}
    (h : lookupKey xs k = none) (ys : List (String × RawValue)) :
    lookupKey (xs ++ ys) k = lookupKey ys k := by
  induction xs with
  | nil => simp
  | cons p rest ih =>
    obtain ⟨k', v⟩ := p
    rw [lookupKey_cons] at h
    by_cases hk : k' = k
    · rw [if_pos hk] at h
      exact absurd h (by simp)
    · rw [if_neg hk] at h
      rw [List.cons_append, lookupKey_cons, if_neg hk]
      exact ih h

@[simp] theorem lookupKey_dumpOpt_append_self (k : String) (o : Option RawValue)
    (rest : List (String × RawValue)) :
    lookupKey (dumpOpt k o ++ rest) k = o.orElse (fun _ => lookupKey rest k) := by
  cases o <;> simp [dumpOpt, lookupKey]

@[simp] theorem lookupKey_dumpOpt_append_ne {k' k : String} (h : k' ≠ k)
    (o : Option RawValue) (rest : List (String × RawValue)) :
    lookupKey (dumpOpt k' o ++ rest) k = lookupKey rest k := by
  cases o <;> simp [dumpOpt, lookupKey, h]

@[simp] theorem lookupKey_single_self (k : String) (v : RawValue) :
    lookupKey [(k, v)] k = some v := by
  simp [lookupKey]

@[simp] theorem lookupKey_single_ne {k' k : String} (h : k' ≠ k) (v : RawValue) :
    lookupKey [(k', v)] k = none := by
  simp [lookupKey, h]

@[simp] theorem unknownErrs_dumpOpt {declared : List String} {k : String}
    (path : List String) (o : Option RawValue) (hk : k ∈ declared) :
    unknownErrs path declared (dumpOpt k o) = [] := by
  cases o <;> simp [dumpOpt, unknownErrs, hk]

@[simp] theorem unknownErrs_single {declared : List String} {k : String}
    (path : List String) (v : RawValue) (hk : k ∈ declared) :
    unknownErrs path declared [(k, v)] = [] := by
  simp [unknownErrs, hk]

theorem optField_sound {P : α → Prop} {f : List String → RawValue → Validated α}
    (hf : ∀ p v x, f p v = .ok x → P x) {path : List String}
    {kvs : List (String × RawValue)} {name : String} {o : Option α}
    (h : optField path kvs name f = .ok o) : ∀ x ∈ o, P x := by
  intro x hx
  rcases optField_ok h with rfl | ⟨y, v, rfl, hl, hy⟩
  · cases hx
  · have hxy : y = x := by simpa using hx
    subst hxy
    exact hf _ _ _ hy

theorem optField_complete {o : Option α} {g : α → RawValue}
    {f : List String → RawValue → Validated α}
    {kvs : List (String × RawValue)} {name : String} (path : List String)
    (hl : lookupKey kvs name = o.map g)
    (hf : ∀ x, o = some x → f (path ++ [name]) (g x) = .ok x) :
    optField path kvs name f = .ok o := by
  cases o with
  | none =>
    simp only [Option.map_none'] at hl
    simp [optField, hl]
  | some x =>
    simp only [Option.map_some'] at hl
    simp [optField, hl, hf x rfl, Validated.vmap]

theorem reqField_complete {v : RawValue} {x : α}
    {f : List String → RawValue → Validated α}
    {kvs : List (String × RawValue)} {name : String} (path : List String)
    (hl : lookupKey kvs name = some v)
    (hf : f (path ++ [name]) v = .ok x) :
    reqField path kvs name f = .ok x := by
  simp [reqField, hl, hf]

@[simp] theorem lookupKey_cons_self (k : String) (v : RawValue)
    (rest : List (String × RawValue)) :
    lookupKey ((k, v) :: rest) k = some v := by
  simp [lookupKey]

@[simp] theorem lookupKey_cons_ne {k' k : String} (h : k' ≠ k) (v : RawValue)
    (rest : List (String × RawValue)) :
    lookupKey ((k', v) :: rest) k = lookupKey rest k := by
  simp [lookupKey, h]

attribute [simp] unknownErrs_cons_declared

/-! ### Channel (`ChannelInlineTable`, `Channel = NonEmptyStr | ChannelInlineTable`) -/

/-- The inline channel table: `{channel: NonEmptyStr | AnyHttpUrl,
priority: int | None}`. -/
structure ChannelInlineTable where
  channel : String
  priority : Option Int
deriving DecidableEq, Repr

/-- Declared keys of a channel inline table. -/
def channelInlineTableFields : List String := ["channel", "priority"]

/-- Validate a raw node as a channel inline table (closed world). -/
def validateChannelInlineTable (path : List String) : RawValue → Validated ChannelInlineTable
  | .table kvs =>
      Validated.withErrors (unknownErrs path channelInlineTableFields kvs)
        (Validated.vseq
          (Validated.vseq (.ok ChannelInlineTable.mk)
            (reqField path kvs "channel" vChannelRef))
          (optField path kvs "priority" vInt))
  | _ => .err [⟨path, ViolationKind.TypeMismatch⟩]

def ChannelInlineTable.dump (t : ChannelInlineTable) : RawValue :=
  .table ([("channel", RawValue.str t.channel)] ++
    dumpOpt "priority" (t.priority.map RawValue.int))

def ChannelInlineTable.Valid (t : ChannelInlineTable) : Prop := t.channel ≠ ""

theorem validateChannelInlineTable_sound {path : List String} {r : RawValue}
    {t : ChannelInlineTable} (h : validateChannelInlineTable path r = .ok t) :
    t.Valid := by
  cases r
  case table kvs =>
    simp only [validateChannelInlineTable] at h
    obtain ⟨-, hcore⟩ := Validated.withErrors_ok h
    obtain ⟨g1, pr, hg1, hpr, rfl⟩ := Validated.vseq_ok hcore
    obtain ⟨g2, ch, hg2, hch, rfl⟩ := Validated.vseq_ok hg1
    cases hg2
    obtain ⟨v, hl, hv⟩ := reqField_ok hch
    exact vChannelRef_sound hv
  all_goals simp [validateChannelInlineTable] at h

theorem validateChannelInlineTable_complete {t : ChannelInlineTable} (ht : t.Valid)
    (path : List String) : validateChannelInlineTable path t.dump = .ok t := by
  have hc : t.channel ≠ "" := ht
  rw [ChannelInlineTable.dump]
  have hu : unknownErrs path channelInlineTableFields
      ([("channel", RawValue.str t.channel)] ++
        dumpOpt "priority" (t.priority.map RawValue.int)) = [] := by
    simp [channelInlineTableFields]
  have h1 : lookupKey
      ([("channel", RawValue.str t.channel)] ++
        dumpOpt "priority" (t.priority.map RawValue.int)) "channel" =
      some (RawValue.str t.channel) := by
    simp
  have h2 : lookupKey
      ([("channel", RawValue.str t.channel)] ++
        dumpOpt "priority" (t.priority.map RawValue.int)) "priority" =
      t.priority.map RawValue.int := by
    simp
  simp only [validateChannelInlineTable]
  rw [hu, reqField_complete path h1 (vChannelRef_complete (path ++ ["channel"]) hc),
    optField_complete path h2 (fun n _ => vInt_complete (path ++ ["priority"]) n)]
  rfl

/-- The union `Channel = NonEmptyStr | ChannelInlineTable`: a bare nonempty string
or an inline table. -/
inductive Channel where
  | str (s : String)
  | table (t : ChannelInlineTable)
deriving DecidableEq, Repr

/-- Ordered-alternative resolution for `Channel`. -/
def vChannel (path : List String) : RawValue → Validated Channel
  | .str s =>
      if s = "" then .err [⟨path, ViolationKind.ShapeMismatch⟩]
      else .ok (Channel.str s)
  | .table kvs => (validateChannelInlineTable path (.table kvs)).vmap Channel.table
  | _ => .err [⟨path, ViolationKind.ShapeMismatch⟩]

def Channel.dump : Channel → RawValue
  | .str s => .str s
  | .table t => t.dump

def Channel.Valid : Channel → Prop
  | .str s => s ≠ ""
  | .table t => t.Valid

theorem vChannel_sound {path : List String} {r : RawValue} {c : Channel}
    (h : vChannel path r = .ok c) : c.Valid := by
  cases r
  case str t =>
    simp only [vChannel] at h
    split at h
    · simp at h
    · cases h; exact (by assumption : t ≠ "")
  case table kvs =>
    simp only [vChannel] at h
    obtain ⟨t, ht, rfl⟩ := Validated.vmap_ok h
    exact validateChannelInlineTable_sound ht
  all_goals simp [vChannel] at h

theorem vChannel_complete {c : Channel} (hc : c.Valid) (path : List String) :
    vChannel path c.dump = .ok c := by
  cases c with
  | str s =>
    have hs : s ≠ "" := hc
    simp [Channel.dump, vChannel, hs]
  | table t =>
    have ht := validateChannelInlineTable_complete (t := t) hc path
    show vChannel path t.dump = .ok (Channel.table t)
    rw [ChannelInlineTable.dump] at ht ⊢
    simp only [List.singleton_append] at ht ⊢
    simp [vChannel, ht, Validated.vmap]

/-! ### Project -/

/-- The `project` metadata table.  Note `channels`: the source declares it
as `list[Channel]` but passes `None` as the field default, so at runtime
the field is optional and resolves to the absent state when omitted. -/
structure Project where
  name : String
  version : Option String
  description : Option String
  authors : Option (List String)
  channels : Option (List Channel)
  platforms : List String
  license : Option String
  license_file : Option String
  readme : Option String
  homepage : Option String
  repository : Option String
  documentation : Option String
deriving DecidableEq, Repr

/-- Declared keys of the project table (declaration order of the source). -/
def projectFields : List String :=
  ["name", "version", "description", "authors", "channels", "platforms",
   "license", "license_file", "readme", "homepage", "repository", "documentation"]

/-- Validate a raw node as a project table (closed world; `name` and
`platforms` required, `channels` optional because of its `None` default). -/
def validateProject (path : List String) : RawValue → Validated Project
  | .table kvs =>
      Validated.withErrors (unknownErrs path projectFields kvs)
        (Validated.vseq (Validated.vseq (Validated.vseq (Validated.vseq
         (Validated.vseq (Validated.vseq (Validated.vseq (Validated.vseq
         (Validated.vseq (Validated.vseq (Validated.vseq (Validated.vseq
          (.ok Project.mk)
          (reqField path kvs "name" vNonEmptyStr))
          (optField path kvs "version" vNonEmptyStr))
          (optField path kvs "description" vNonEmptyStr))
          (optField path kvs "authors" (vList vNonEmptyStr)))
          (optField path kvs "channels" (vList vChannel)))
          (reqField path kvs "platforms" (vList vNonEmptyStr)))
          (optField path kvs "license" vNonEmptyStr))
          (optField path kvs "license_file" vPathNoBackslash))
          (optField path kvs "readme" vPathNoBackslash))
          (optField path kvs "homepage" vHttpUrl))
          (optField path kvs "repository" vHttpUrl))
          (optField path kvs "documentation" vHttpUrl))
  | _ => .err [⟨path, ViolationKind.TypeMismatch⟩]

/-- Raw-table form of a project (absent optional fields omitted). -/
def Project.dumpKvs (p : Project) : List (String × RawValue) :=
  [("name", RawValue.str p.name)] ++
  dumpOpt "version" (p.version.map RawValue.str) ++
  dumpOpt "description" (p.description.map RawValue.str) ++
  dumpOpt "authors" (p.authors.map (fun xs => RawValue.list (xs.map RawValue.str))) ++
  dumpOpt "channels" (p.channels.map (fun cs => RawValue.list (cs.map Channel.dump))) ++
  [("platforms", RawValue.list (p.platforms.map RawValue.str))] ++
  dumpOpt "license" (p.license.map RawValue.str) ++
  dumpOpt "license_file" (p.license_file.map RawValue.str) ++
  dumpOpt "readme" (p.readme.map RawValue.str) ++
  dumpOpt "homepage" (p.homepage.map RawValue.str) ++
  dumpOpt "repository" (p.repository.map RawValue.str) ++
  dumpOpt "documentation" (p.documentation.map RawValue.str)

def Project.dump (p : Project) : RawValue := .table p.dumpKvs

/-- Structural invariant of a validated project. -/
def Project.Valid (p : Project) : Prop :=
  p.name ≠ "" ∧
  (∀ s ∈ p.version, s ≠ "") ∧
  (∀ s ∈ p.description, s ≠ "") ∧
  (∀ l ∈ p.authors, ∀ s ∈ l, s ≠ "") ∧
  (∀ cs ∈ p.channels, ∀ c ∈ cs, c.Valid) ∧
  (∀ s ∈ p.platforms, s ≠ "") ∧
  (∀ s ∈ p.license, s ≠ "") ∧
  (∀ s ∈ p.license_file, s ≠ "" ∧ noBackslash s = true) ∧
  (∀ s ∈ p.readme, s ≠ "" ∧ noBackslash s = true) ∧
  (∀ s ∈ p.homepage, isHttpUrl s = true) ∧
  (∀ s ∈ p.repository, isHttpUrl s = true) ∧
  (∀ s ∈ p.documentation, isHttpUrl s = true)

theorem validateProject_sound {path : List String} {r : RawValue} {p : Project}
    (h : validateProject path r = .ok p) : p.Valid := by
  cases r
  case table kvs =>
    simp only [validateProject] at h
    obtain ⟨-, hc0⟩ := Validated.withErrors_ok h
    obtain ⟨g12, fdoc, hc1, hdoc, rfl⟩ := Validated.vseq_ok hc0
    obtain ⟨g11, frepo, hc2, hrepo, rfl⟩ := Validated.vseq_ok hc1
    obtain ⟨g10, fhome, hc3, hhome, rfl⟩ := Validated.vseq_ok hc2
    obtain ⟨g9, fread, hc4, hread, rfl⟩ := Validated.vseq_ok hc3
    obtain ⟨g8, flf, hc5, hlf, rfl⟩ := Validated.vseq_ok hc4
    obtain ⟨g7, flic, hc6, hlic, rfl⟩ := Validated.vseq_ok hc5
    obtain ⟨g6, fplat, hc7, hplat, rfl⟩ := Validated.vseq_ok hc6
    obtain ⟨g5, fch, hc8, hch, rfl⟩ := Validated.vseq_ok hc7
    obtain ⟨g4, fauth, hc9, hauth, rfl⟩ := Validated.vseq_ok hc8
    obtain ⟨g3, fdesc, hc10, hdesc, rfl⟩ := Validated.vseq_ok hc9
    obtain ⟨g2, fver, hc11, hver, rfl⟩ := Validated.vseq_ok hc10
    obtain ⟨g1, fname, hg, hname, rfl⟩ := Validated.vseq_ok hc11
    cases hg
    obtain ⟨v, hl, hv⟩ := reqField_ok hname
    obtain ⟨v2, hl2, hv2⟩ := reqField_ok hplat
    refine ⟨vNonEmptyStr_sound hv, ?_, ?_, ?_, ?_, ?_, ?_, ?_, ?_, ?_, ?_, ?_⟩
    · exact optField_sound (fun _ _ _ hx => vNonEmptyStr_sound hx) hver
    · exact optField_sound (fun _ _ _ hx => vNonEmptyStr_sound hx) hdesc
    · exact optField_sound
        (fun _ _ _ hx => vList_sound (fun _ _ _ hs => vNonEmptyStr_sound hs) hx) hauth
    · exact optField_sound
        (fun _ _ _ hx => vList_sound (fun _ _ _ hs => vChannel_sound hs) hx) hch
    · exact vList_sound (fun _ _ _ hs => vNonEmptyStr_sound hs) hv2
    · exact optField_sound (fun _ _ _ hx => vNonEmptyStr_sound hx) hlic
    · exact optField_sound (fun _ _ _ hx => vPathNoBackslash_sound hx) hlf
    · exact optField_sound (fun _ _ _ hx => vPathNoBackslash_sound hx) hread
    · exact optField_sound (fun _ _ _ hx => vHttpUrl_sound hx) hhome
    · exact optField_sound (fun _ _ _ hx => vHttpUrl_sound hx) hrepo
    · exact optField_sound (fun _ _ _ hx => vHttpUrl_sound hx) hdoc
  all_goals simp [validateProject] at h

theorem validateProject_complete {p : Project} (hp : p.Valid) (path : List String) :
    validateProject path p.dump = .ok p := by
  obtain ⟨h1, h2, h3, h4, h5, h6, h7, h8, h9, h10, h11, h12⟩ := hp
  have hu : unknownErrs path projectFields p.dumpKvs = [] := by
    simp [Project.dumpKvs, projectFields, List.append_assoc]
  have l1 : lookupKey p.dumpKvs "name" = some (RawValue.str p.name) := by
    simp [Project.dumpKvs, List.append_assoc]
  have l2 : lookupKey p.dumpKvs "version" = p.version.map RawValue.str := by
    simp [Project.dumpKvs, List.append_assoc]
  have l3 : lookupKey p.dumpKvs "description" = p.description.map RawValue.str := by
    simp [Project.dumpKvs, List.append_assoc]
  have l4 : lookupKey p.dumpKvs "authors" =
      p.authors.map (fun xs => RawValue.list (xs.map RawValue.str)) := by
    simp [Project.dumpKvs, List.append_assoc]
  have l5 : lookupKey p.dumpKvs "channels" =
      p.channels.map (fun cs => RawValue.list (cs.map Channel.dump)) := by
    simp [Project.dumpKvs, List.append_assoc]
  have l6 : lookupKey p.dumpKvs "platforms" =
      some (RawValue.list (p.platforms.map RawValue.str)) := by
    simp [Project.dumpKvs, List.append_assoc]
  have l7 : lookupKey p.dumpKvs "license" = p.license.map RawValue.str := by
    simp [Project.dumpKvs, List.append_assoc]
  have l8 : lookupKey p.dumpKvs "license_file" = p.license_file.map RawValue.str := by
    simp [Project.dumpKvs, List.append_assoc]
  have l9 : lookupKey p.dumpKvs "readme" = p.readme.map RawValue.str := by
    simp [Project.dumpKvs, List.append_assoc]
  have l10 : lookupKey p.dumpKvs "homepage" = p.homepage.map RawValue.str := by
    simp [Project.dumpKvs, List.append_assoc]
  have l11 : lookupKey p.dumpKvs "repository" = p.repository.map RawValue.str := by
    simp [Project.dumpKvs, List.append_assoc]
  have l12 : lookupKey p.dumpKvs "documentation" = p.documentation.map RawValue.str := by
    simp [Project.dumpKvs, List.append_assoc]
  rw [Project.dump]
  simp only [validateProject]
  rw [hu,
    reqField_complete path l1 (vNonEmptyStr_complete (path ++ ["name"]) h1),
    optField_complete path l2 (fun s hs => vNonEmptyStr_complete _ (h2 s (by simp [hs]))),
    optField_complete path l3 (fun s hs => vNonEmptyStr_complete _ (h3 s (by simp [hs]))),
    optField_complete path l4 (fun xs hxs =>
      vList_complete (fun s hs pa => vNonEmptyStr_complete pa (h4 xs (by simp [hxs]) s hs)) _),
    optField_complete path l5 (fun cs hcs =>
      vList_complete (fun c hc pa => vChannel_complete (h5 cs (by simp [hcs]) c hc) pa) _),
    reqField_complete path l6
      (vList_complete (fun s hs pa => vNonEmptyStr_complete pa (h6 s hs)) _),
    optField_complete path l7 (fun s hs => vNonEmptyStr_complete _ (h7 s (by simp [hs]))),
    optField_complete path l8 (fun s hs => vPathNoBackslash_complete _ (h8 s (by simp [hs]))),
    optField_complete path l9 (fun s hs => vPathNoBackslash_complete _ (h9 s (by simp [hs]))),
    optField_complete path l10 (fun s hs => vHttpUrl_complete _ (h10 s (by simp [hs]))),
    optField_complete path l11 (fun s hs => vHttpUrl_complete _ (h11 s (by simp [hs]))),
    optField_complete path l12 (fun s hs => vHttpUrl_complete _ (h12 s (by simp [hs])))]
  rfl

/-! ### Dependencies (`MatchspecTable`, `MatchSpec`, `PyPIRequirementTable`,
`PyPIRequirement`) -/

/-- The inline MatchSpec table: `{version, build, channel}`, all optional
nonempty strings. -/
structure MatchspecTable where
  version : Option String
  build : Option String
  channel : Option String
deriving DecidableEq, Repr

/-- Declared keys of a MatchSpec table. -/
def matchspecTableFields : List String := ["version", "build", "channel"]

def validateMatchspecTable (path : List String) : RawValue → Validated MatchspecTable
  | .table kvs =>
      Validated.withErrors (unknownErrs path matchspecTableFields kvs)
        (Validated.vseq (Validated.vseq (Validated.vseq
          (.ok MatchspecTable.mk)
          (optField path kvs "version" vNonEmptyStr))
          (optField path kvs "build" vNonEmptyStr))
          (optField path kvs "channel" vNonEmptyStr))
  | _ => .err [⟨path, ViolationKind.TypeMismatch⟩]

def MatchspecTable.dumpKvs (t : MatchspecTable) : List (String × RawValue) :=
  dumpOpt "version" (t.version.map RawValue.str) ++
  dumpOpt "build" (t.build.map RawValue.str) ++
  dumpOpt "channel" (t.channel.map RawValue.str)

def MatchspecTable.dump (t : MatchspecTable) : RawValue := .table t.dumpKvs

def MatchspecTable.Valid (t : MatchspecTable) : Prop :=
  (∀ s ∈ t.version, s ≠ "") ∧ (∀ s ∈ t.build, s ≠ "") ∧ (∀ s ∈ t.channel, s ≠ "")

theorem validateMatchspecTable_sound {path : List String} {r : RawValue}
    {t : MatchspecTable} (h : validateMatchspecTable path r = .ok t) : t.Valid := by
  cases r
  case table kvs =>
    simp only [validateMatchspecTable] at h
    obtain ⟨-, hc0⟩ := Validated.withErrors_ok h
    obtain ⟨g3, fchan, hc1, hchan, rfl⟩ := Validated.vseq_ok hc0
    obtain ⟨g2, fbuild, hc2, hbuild, rfl⟩ := Validated.vseq_ok hc1
    obtain ⟨g1, fver, hg, hver, rfl⟩ := Validated.vseq_ok hc2
    cases hg
    exact ⟨optField_sound (fun _ _ _ hx => vNonEmptyStr_sound hx) hver,
      optField_sound (fun _ _ _ hx => vNonEmptyStr_sound hx) hbuild,
      optField_sound (fun _ _ _ hx => vNonEmptyStr_sound hx) hchan⟩
  all_goals simp [validateMatchspecTable] at h

theorem validateMatchspecTable_complete {t : MatchspecTable} (ht : t.Valid)
    (path : List String) : validateMatchspecTable path t.dump = .ok t := by
  obtain ⟨h1, h2, h3⟩ := ht
  have l1 : lookupKey t.dumpKvs "version" = t.version.map RawValue.str := by
    simp [MatchspecTable.dumpKvs, List.append_assoc]
  have l2 : lookupKey t.dumpKvs "build" = t.build.map RawValue.str := by
    simp [MatchspecTable.dumpKvs, List.append_assoc]
  have l3 : lookupKey t.dumpKvs "channel" = t.channel.map RawValue.str := by
    simp [MatchspecTable.dumpKvs, List.append_assoc]
  have hu : unknownErrs path matchspecTableFields t.dumpKvs = [] := by
    simp [MatchspecTable.dumpKvs, matchspecTableFields, List.append_assoc]
  rw [MatchspecTable.dump]
  simp only [validateMatchspecTable]
  rw [hu,
    optField_complete path l1 (fun s hs => vNonEmptyStr_complete _ (h1 s (by simp [hs]))),
    optField_complete path l2 (fun s hs => vNonEmptyStr_complete _ (h2 s (by simp [hs]))),
    optField_complete path l3 (fun s hs => vNonEmptyStr_complete _ (h3 s (by simp [hs])))]
  rfl

/-- The union `MatchSpec = NonEmptyStr | MatchspecTable`. -/
inductive MatchSpec where
  | str (s : String)
  | table (t : MatchspecTable)
deriving DecidableEq, Repr

def vMatchSpec (path : List String) : RawValue → Validated MatchSpec
  | .str s =>
      if s = "" then .err [⟨path, ViolationKind.ShapeMismatch⟩]
      else .ok (MatchSpec.str s)
  | .table kvs => (validateMatchspecTable path (.table kvs)).vmap MatchSpec.table
  | _ => .err [⟨path, ViolationKind.ShapeMismatch⟩]

def MatchSpec.dump : MatchSpec → RawValue
  | .str s => .str s
  | .table t => t.dump

def MatchSpec.Valid : MatchSpec → Prop
  | .str s => s ≠ ""
  | .table t => t.Valid

theorem vMatchSpec_sound {path : List String} {r : RawValue} {m : MatchSpec}
    (h : vMatchSpec path r = .ok m) : m.Valid := by
  cases r
  case str t =>
    simp only [vMatchSpec] at h
    split at h
    · simp at h
    · cases h; exact (by assumption : t ≠ "")
  case table kvs =>
    simp only [vMatchSpec] at h
    obtain ⟨t, ht, rfl⟩ := Validated.vmap_ok h
    exact validateMatchspecTable_sound ht
  all_goals simp [vMatchSpec] at h

theorem vMatchSpec_complete {m : MatchSpec} (hm : m.Valid) (path : List String) :
    vMatchSpec path m.dump = .ok m := by
  cases m with
  | str s =>
    have hs : s ≠ "" := hm
    simp [MatchSpec.dump, vMatchSpec, hs]
  | table t =>
    have ht := validateMatchspecTable_complete (t := t) hm path
    rw [MatchspecTable.dump] at ht
    show vMatchSpec path (.table t.dumpKvs) = .ok (MatchSpec.table t)
    simp only [vMatchSpec]
    rw [ht]
    rfl

/-- The inline PyPI requirement table: `{version, extras}`. -/
structure PyPIRequirementTable where
  version : Option String
  extras : Option (List String)
deriving DecidableEq, Repr

/-- Declared keys of a PyPI requirement table. -/
def pypiRequirementTableFields : List String := ["version", "extras"]

def validatePyPIRequirementTable (path : List String) :
    RawValue → Validated PyPIRequirementTable
  | .table kvs =>
      Validated.withErrors (unknownErrs path pypiRequirementTableFields kvs)
        (Validated.vseq (Validated.vseq
          (.ok PyPIRequirementTable.mk)
          (optField path kvs "version" vNonEmptyStr))
          (optField path kvs "extras" (vList vNonEmptyStr)))
  | _ => .err [⟨path, ViolationKind.TypeMismatch⟩]

def PyPIRequirementTable.dumpKvs (t : PyPIRequirementTable) : List (String × RawValue) :=
  dumpOpt "version" (t.version.map RawValue.str) ++
  dumpOpt "extras" (t.extras.map (fun xs => RawValue.list (xs.map RawValue.str)))

def PyPIRequirementTable.dump (t : PyPIRequirementTable) : RawValue := .table t.dumpKvs

def PyPIRequirementTable.Valid (t : PyPIRequirementTable) : Prop :=
  (∀ s ∈ t.version, s ≠ "") ∧ (∀ l ∈ t.extras, ∀ s ∈ l, s ≠ "")

theorem validatePyPIRequirementTable_sound {path : List String} {r : RawValue}
    {t : PyPIRequirementTable} (h : validatePyPIRequirementTable path r = .ok t) :
    t.Valid := by
  cases r
  case table kvs =>
    simp only [validatePyPIRequirementTable] at h
    obtain ⟨-, hc0⟩ := Validated.withErrors_ok h
    obtain ⟨g2, fext, hc1, hext, rfl⟩ := Validated.vseq_ok hc0
    obtain ⟨g1, fver, hg, hver, rfl⟩ := Validated.vseq_ok hc1
    cases hg
    exact ⟨optField_sound (fun _ _ _ hx => vNonEmptyStr_sound hx) hver,
      optField_sound
        (fun _ _ _ hx => vList_sound (fun _ _ _ hs => vNonEmptyStr_sound hs) hx) hext⟩
  all_goals simp [validatePyPIRequirementTable] at h

theorem validatePyPIRequirementTable_complete {t : PyPIRequirementTable} (ht : t.Valid)
    (path : List String) : validatePyPIRequirementTable path t.dump = .ok t := by
  obtain ⟨h1, h2⟩ := ht
  have l1 : lookupKey t.dumpKvs "version" = t.version.map RawValue.str := by
    simp [PyPIRequirementTable.dumpKvs, List.append_assoc]
  have l2 : lookupKey t.dumpKvs "extras" =
      t.extras.map (fun xs => RawValue.list (xs.map RawValue.str)) := by
    simp [PyPIRequirementTable.dumpKvs, List.append_assoc]
  have hu : unknownErrs path pypiRequirementTableFields t.dumpKvs = [] := by
    simp [PyPIRequirementTable.dumpKvs, pypiRequirementTableFields, List.append_assoc]
  rw [PyPIRequirementTable.dump]
  simp only [validatePyPIRequirementTable]
  rw [hu,
    optField_complete path l1 (fun s hs => vNonEmptyStr_complete _ (h1 s (by simp [hs]))),
    optField_complete path l2 (fun xs hxs =>
      vList_complete (fun s hs pa => vNonEmptyStr_complete pa (h2 xs (by simp [hxs]) s hs)) _)]
  rfl

/-- The union `PyPIRequirement = NonEmptyStr | PyPIRequirementTable`. -/
inductive PyPIRequirement where
  | str (s : String)
  | table (t : PyPIRequirementTable)
deriving DecidableEq, Repr

def vPyPIRequirement (path : List String) : RawValue → Validated PyPIRequirement
  | .str s =>
      if s = "" then .err [⟨path, ViolationKind.ShapeMismatch⟩]
      else .ok (PyPIRequirement.str s)
  | .table kvs => (validatePyPIRequirementTable path (.table kvs)).vmap PyPIRequirement.table
  | _ => .err [⟨path, ViolationKind.ShapeMismatch⟩]

def PyPIRequirement.dump : PyPIRequirement → RawValue
  | .str s => .str s
  | .table t => t.dump

def PyPIRequirement.Valid : PyPIRequirement → Prop
  | .str s => s ≠ ""
  | .table t => t.Valid

theorem vPyPIRequirement_sound {path : List String} {r : RawValue} {m : PyPIRequirement}
    (h : vPyPIRequirement path r = .ok m) : m.Valid := by
  cases r
  case str t =>
    simp only [vPyPIRequirement] at h
    split at h
    · simp at h
    · cases h; exact (by assumption : t ≠ "")
  case table kvs =>
    simp only [vPyPIRequirement] at h
    obtain ⟨t, ht, rfl⟩ := Validated.vmap_ok h
    exact validatePyPIRequirementTable_sound ht
  all_goals simp [vPyPIRequirement] at h

theorem vPyPIRequirement_complete {m : PyPIRequirement} (hm : m.Valid)
    (path : List String) : vPyPIRequirement path m.dump = .ok m := by
  cases m with
  | str s =>
    have hs : s ≠ "" := hm
    simp [PyPIRequirement.dump, vPyPIRequirement, hs]
  | table t =>
    have ht := validatePyPIRequirementTable_complete (t := t) hm path
    rw [PyPIRequirementTable.dump] at ht
    show vPyPIRequirement path (.table t.dumpKvs) = .ok (PyPIRequirement.table t)
    simp only [vPyPIRequirement]
    rw [ht]
    rfl

/-! ### Tasks (`TaskInlineTable`, task value `TaskInlineTable | NonEmptyStr`) -/

/-- The inline task table: `{cmd, cwd, depends_on}`. -/
structure TaskInlineTable where
  cmd : Option StrsOrStr
  cwd : Option String
  depends_on : Option StrsOrStr
deriving DecidableEq, Repr

/-- Declared keys of a task table (no alias: `depends_on` is addressed with
the underscore spelling). -/
def taskInlineTableFields : List String := ["cmd", "cwd", "depends_on"]

def validateTaskInlineTable (path : List String) : RawValue → Validated TaskInlineTable
  | .table kvs =>
      Validated.withErrors (unknownErrs path taskInlineTableFields kvs)
        (Validated.vseq (Validated.vseq (Validated.vseq
          (.ok TaskInlineTable.mk)
          (optField path kvs "cmd" vStrsOrStr))
          (optField path kvs "cwd" vPathNoBackslash))
          (optField path kvs "depends_on" vStrsOrStr))
  | _ => .err [⟨path, ViolationKind.TypeMismatch⟩]

def TaskInlineTable.dumpKvs (t : TaskInlineTable) : List (String × RawValue) :=
  dumpOpt "cmd" (t.cmd.map StrsOrStr.dump) ++
  dumpOpt "cwd" (t.cwd.map RawValue.str) ++
  dumpOpt "depends_on" (t.depends_on.map StrsOrStr.dump)

def TaskInlineTable.dump (t : TaskInlineTable) : RawValue := .table t.dumpKvs

def TaskInlineTable.Valid (t : TaskInlineTable) : Prop :=
  (∀ x ∈ t.cmd, x.Valid) ∧
  (∀ s ∈ t.cwd, s ≠ "" ∧ noBackslash s = true) ∧
  (∀ x ∈ t.depends_on, x.Valid)

theorem validateTaskInlineTable_sound {path : List String} {r : RawValue}
    {t : TaskInlineTable} (h : validateTaskInlineTable path r = .ok t) : t.Valid := by
  cases r
  case table kvs =>
    simp only [validateTaskInlineTable] at h
    obtain ⟨-, hc0⟩ := Validated.withErrors_ok h
    obtain ⟨g3, fdep, hc1, hdep, rfl⟩ := Validated.vseq_ok hc0
    obtain ⟨g2, fcwd, hc2, hcwd, rfl⟩ := Validated.vseq_ok hc1
    obtain ⟨g1, fcmd, hg, hcmd, rfl⟩ := Validated.vseq_ok hc2
    cases hg
    exact ⟨optField_sound (fun _ _ _ hx => vStrsOrStr_sound hx) hcmd,
      optField_sound (fun _ _ _ hx => vPathNoBackslash_sound hx) hcwd,
      optField_sound (fun _ _ _ hx => vStrsOrStr_sound hx) hdep⟩
  all_goals simp [validateTaskInlineTable] at h

theorem validateTaskInlineTable_complete {t : TaskInlineTable} (ht : t.Valid)
    (path : List String) : validateTaskInlineTable path t.dump = .ok t := by
  obtain ⟨h1, h2, h3⟩ := ht
  have l1 : lookupKey t.dumpKvs "cmd" = t.cmd.map StrsOrStr.dump := by
    simp [TaskInlineTable.dumpKvs, List.append_assoc]
  have l2 : lookupKey t.dumpKvs "cwd" = t.cwd.map RawValue.str := by
    simp [TaskInlineTable.dumpKvs, List.append_assoc]
  have l3 : lookupKey t.dumpKvs "depends_on" = t.depends_on.map StrsOrStr.dump := by
    simp [TaskInlineTable.dumpKvs, List.append_assoc]
  have hu : unknownErrs path taskInlineTableFields t.dumpKvs = [] := by
    simp [TaskInlineTable.dumpKvs, taskInlineTableFields, List.append_assoc]
  rw [TaskInlineTable.dump]
  simp only [validateTaskInlineTable]
  rw [hu,
    optField_complete path l1 (fun x hx => vStrsOrStr_complete (h1 x (by simp [hx])) _),
    optField_complete path l2 (fun s hs => vPathNoBackslash_complete _ (h2 s (by simp [hs]))),
    optField_complete path l3 (fun x hx => vStrsOrStr_complete (h3 x (by simp [hx])) _)]
  rfl

/-- A task value: `TaskInlineTable | NonEmptyStr`. -/
inductive TaskValue where
  | table (t : TaskInlineTable)
  | str (s : String)
deriving DecidableEq, Repr

def vTaskValue (path : List String) : RawValue → Validated TaskValue
  | .table kvs => (validateTaskInlineTable path (.table kvs)).vmap TaskValue.table
  | .str s =>
      if s = "" then .err [⟨path, ViolationKind.ShapeMismatch⟩]
      else .ok (TaskValue.str s)
  | _ => .err [⟨path, ViolationKind.ShapeMismatch⟩]

def TaskValue.dump : TaskValue → RawValue
  | .table t => t.dump
  | .str s => .str s

def TaskValue.Valid : TaskValue → Prop
  | .table t => t.Valid
  | .str s => s ≠ ""

theorem vTaskValue_sound {path : List String} {r : RawValue} {m : TaskValue}
    (h : vTaskValue path r = .ok m) : m.Valid := by
  cases r
  case str t =>
    simp only [vTaskValue] at h
    split at h
    · simp at h
    · cases h; exact (by assumption : t ≠ "")
  case table kvs =>
    simp only [vTaskValue] at h
    obtain ⟨t, ht, rfl⟩ := Validated.vmap_ok h
    exact validateTaskInlineTable_sound ht
  all_goals simp [vTaskValue] at h

theorem vTaskValue_complete {m : TaskValue} (hm : m.Valid) (path : List String) :
    vTaskValue path m.dump = .ok m := by
  cases m with
  | str s =>
    have hs : s ≠ "" := hm
    simp [TaskValue.dump, vTaskValue, hs]
  | table t =>
    have ht := validateTaskInlineTable_complete (t := t) hm path
    rw [TaskInlineTable.dump] at ht
    show vTaskValue path (.table t.dumpKvs) = .ok (TaskValue.table t)
    simp only [vTaskValue]
    rw [ht]
    rfl

/-! ### System requirements (`LibcFamily`, `SystemRequirements`) -/

/-- The libc table: `{family, version}`. -/
structure LibcFamily where
  family : Option String
  version : Option FloatOrStr
deriving DecidableEq, Repr

/-- Declared keys of a libc table. -/
def libcFamilyFields : List String := ["family", "version"]

def validateLibcFamily (path : List String) : RawValue → Validated LibcFamily
  | .table kvs =>
      Validated.withErrors (unknownErrs path libcFamilyFields kvs)
        (Validated.vseq (Validated.vseq
          (.ok LibcFamily.mk)
          (optField path kvs "family" vNonEmptyStr))
          (optField path kvs "version" vFloatOrStr))
  | _ => .err [⟨path, ViolationKind.TypeMismatch⟩]

def LibcFamily.dumpKvs (t : LibcFamily) : List (String × RawValue) :=
  dumpOpt "family" (t.family.map RawValue.str) ++
  dumpOpt "version" (t.version.map FloatOrStr.dump)

def LibcFamily.dump (t : LibcFamily) : RawValue := .table t.dumpKvs

def LibcFamily.Valid (t : LibcFamily) : Prop :=
  (∀ s ∈ t.family, s ≠ "") ∧ (∀ x ∈ t.version, x.ValidAny)

theorem validateLibcFamily_sound {path : List String} {r : RawValue}
    {t : LibcFamily} (h : validateLibcFamily path r = .ok t) : t.Valid := by
  cases r
  case table kvs =>
    simp only [validateLibcFamily] at h
    obtain ⟨-, hc0⟩ := Validated.withErrors_ok h
    obtain ⟨g2, fver, hc1, hver, rfl⟩ := Validated.vseq_ok hc0
    obtain ⟨g1, ffam, hg, hfam, rfl⟩ := Validated.vseq_ok hc1
    cases hg
    exact ⟨optField_sound (fun _ _ _ hx => vNonEmptyStr_sound hx) hfam,
      optField_sound (fun _ _ _ hx => vFloatOrStr_sound hx) hver⟩
  all_goals simp [validateLibcFamily] at h

theorem validateLibcFamily_complete {t : LibcFamily} (ht : t.Valid)
    (path : List String) : validateLibcFamily path t.dump = .ok t := by
  obtain ⟨h1, h2⟩ := ht
  have l1 : lookupKey t.dumpKvs "family" = t.family.map RawValue.str := by
    simp [LibcFamily.dumpKvs, List.append_assoc]
  have l2 : lookupKey t.dumpKvs "version" = t.version.map FloatOrStr.dump := by
    simp [LibcFamily.dumpKvs, List.append_assoc]
  have hu : unknownErrs path libcFamilyFields t.dumpKvs = [] := by
    simp [LibcFamily.dumpKvs, libcFamilyFields, List.append_assoc]
  rw [LibcFamily.dump]
  simp only [validateLibcFamily]
  rw [hu,
    optField_complete path l1 (fun s hs => vNonEmptyStr_complete _ (h1 s (by simp [hs]))),
    optField_complete path l2 (fun x hx => vFloatOrStr_complete (h2 x (by simp [hx])) _)]
  rfl

/-- A libc system-requirement value: `LibcFamily | float | NonEmptyStr`. -/
inductive LibcValue where
  | table (t : LibcFamily)
  | float (q : Rat)
  | str (s : String)
deriving DecidableEq, Repr

def vLibcValue (path : List String) : RawValue → Validated LibcValue
  | .table kvs => (validateLibcFamily path (.table kvs)).vmap LibcValue.table
  | .float q => .ok (LibcValue.float q)
  | .int n => .ok (LibcValue.float (n : Rat))
  | .str s =>
      if s = "" then .err [⟨path, ViolationKind.ShapeMismatch⟩]
      else .ok (LibcValue.str s)
  | _ => .err [⟨path, ViolationKind.ShapeMismatch⟩]

def LibcValue.dump : LibcValue → RawValue
  | .table t => t.dump
  | .float q => .float q
  | .str s => .str s

def LibcValue.Valid : LibcValue → Prop
  | .table t => t.Valid
  | .float _ => True
  | .str s => s ≠ ""

theorem vLibcValue_sound {path : List String} {r : RawValue} {m : LibcValue}
    (h : vLibcValue path r = .ok m) : m.Valid := by
  cases r
  case float q => cases h; trivial
  case int n => cases h; trivial
  case str t =>
    simp only [vLibcValue] at h
    split at h
    · simp at h
    · cases h; exact (by assumption : t ≠ "")
  case table kvs =>
    simp only [vLibcValue] at h
    obtain ⟨t, ht, rfl⟩ := Validated.vmap_ok h
    exact validateLibcFamily_sound ht
  all_goals simp [vLibcValue] at h

theorem vLibcValue_complete {m : LibcValue} (hm : m.Valid) (path : List String) :
    vLibcValue path m.dump = .ok m := by
  cases m with
  | float q => rfl
  | str s =>
    have hs : s ≠ "" := hm
    simp [LibcValue.dump, vLibcValue, hs]
  | table t =>
    have ht := validateLibcFamily_complete (t := t) hm path
    rw [LibcFamily.dump] at ht
    show vLibcValue path (.table t.dumpKvs) = .ok (LibcValue.table t)
    simp only [vLibcValue]
    rw [ht]
    rfl

/-- The system requirements table: all six fields optional. -/
structure SystemRequirements where
  linux : Option FloatOrStr
  unix : Option BoolOrStr
  libc : Option LibcValue
  cuda : Option FloatOrStr
  archspec : Option String
  macos : Option FloatOrStr
deriving DecidableEq, Repr

/-- Declared keys of the system requirements table. -/
def systemRequirementsFields : List String :=
  ["linux", "unix", "libc", "cuda", "archspec", "macos"]

def validateSystemRequirements (path : List String) : RawValue → Validated SystemRequirements
  | .table kvs =>
      Validated.withErrors (unknownErrs path systemRequirementsFields kvs)
        (Validated.vseq (Validated.vseq (Validated.vseq (Validated.vseq
         (Validated.vseq (Validated.vseq
          (.ok SystemRequirements.mk)
          (optField path kvs "linux" vPosFloatOrStr))
          (optField path kvs "unix" vBoolOrStr))
          (optField path kvs "libc" vLibcValue))
          (optField path kvs "cuda" vFloatOrStr))
          (optField path kvs "archspec" vNonEmptyStr))
          (optField path kvs "macos" vPosFloatOrStr))
  | _ => .err [⟨path, ViolationKind.TypeMismatch⟩]

def SystemRequirements.dumpKvs (t : SystemRequirements) : List (String × RawValue) :=
  dumpOpt "linux" (t.linux.map FloatOrStr.dump) ++
  dumpOpt "unix" (t.unix.map BoolOrStr.dump) ++
  dumpOpt "libc" (t.libc.map LibcValue.dump) ++
  dumpOpt "cuda" (t.cuda.map FloatOrStr.dump) ++
  dumpOpt "archspec" (t.archspec.map RawValue.str) ++
  dumpOpt "macos" (t.macos.map FloatOrStr.dump)

def SystemRequirements.dump (t : SystemRequirements) : RawValue := .table t.dumpKvs

def SystemRequirements.Valid (t : SystemRequirements) : Prop :=
  (∀ x ∈ t.linux, x.ValidPos) ∧
  (∀ x ∈ t.unix, x.Valid) ∧
  (∀ x ∈ t.libc, x.Valid) ∧
  (∀ x ∈ t.cuda, x.ValidAny) ∧
  (∀ s ∈ t.archspec, s ≠ "") ∧
  (∀ x ∈ t.macos, x.ValidPos)

theorem validateSystemRequirements_sound {path : List String} {r : RawValue}
    {t : SystemRequirements} (h : validateSystemRequirements path r = .ok t) :
    t.Valid := by
  cases r
  case table kvs =>
    simp only [validateSystemRequirements] at h
    obtain ⟨-, hc0⟩ := Validated.withErrors_ok h
    obtain ⟨g6, fmac, hc1, hmac, rfl⟩ := Validated.vseq_ok hc0
    obtain ⟨g5, farch, hc2, harch, rfl⟩ := Validated.vseq_ok hc1
    obtain ⟨g4, fcuda, hc3, hcuda, rfl⟩ := Validated.vseq_ok hc2
    obtain ⟨g3, flibc, hc4, hlibc, rfl⟩ := Validated.vseq_ok hc3
    obtain ⟨g2, funix, hc5, hunix, rfl⟩ := Validated.vseq_ok hc4
    obtain ⟨g1, flin, hg, hlin, rfl⟩ := Validated.vseq_ok hc5
    cases hg
    exact ⟨optField_sound (fun _ _ _ hx => vPosFloatOrStr_sound hx) hlin,
      optField_sound (fun _ _ _ hx => vBoolOrStr_sound hx) hunix,
      optField_sound (fun _ _ _ hx => vLibcValue_sound hx) hlibc,
      optField_sound (fun _ _ _ hx => vFloatOrStr_sound hx) hcuda,
      optField_sound (fun _ _ _ hx => vNonEmptyStr_sound hx) harch,
      optField_sound (fun _ _ _ hx => vPosFloatOrStr_sound hx) hmac⟩
  all_goals simp [validateSystemRequirements] at h

theorem validateSystemRequirements_complete {t : SystemRequirements} (ht : t.Valid)
    (path : List String) : validateSystemRequirements path t.dump = .ok t := by
  obtain ⟨h1, h2, h3, h4, h5, h6⟩ := ht
  have l1 : lookupKey t.dumpKvs "linux" = t.linux.map FloatOrStr.dump := by
    simp [SystemRequirements.dumpKvs, List.append_assoc]
  have l2 : lookupKey t.dumpKvs "unix" = t.unix.map BoolOrStr.dump := by
    simp [SystemRequirements.dumpKvs, List.append_assoc]
  have l3 : lookupKey t.dumpKvs "libc" = t.libc.map LibcValue.dump := by
    simp [SystemRequirements.dumpKvs, List.append_assoc]
  have l4 : lookupKey t.dumpKvs "cuda" = t.cuda.map FloatOrStr.dump := by
    simp [SystemRequirements.dumpKvs, List.append_assoc]
  have l5 : lookupKey t.dumpKvs "archspec" = t.archspec.map RawValue.str := by
    simp [SystemRequirements.dumpKvs, List.append_assoc]
  have l6 : lookupKey t.dumpKvs "macos" = t.macos.map FloatOrStr.dump := by
    simp [SystemRequirements.dumpKvs, List.append_assoc]
  have hu : unknownErrs path systemRequirementsFields t.dumpKvs = [] := by
    simp [SystemRequirements.dumpKvs, systemRequirementsFields, List.append_assoc]
  rw [SystemRequirements.dump]
  simp only [validateSystemRequirements]
  rw [hu,
    optField_complete path l1 (fun x hx => vPosFloatOrStr_complete (h1 x (by simp [hx])) _),
    optField_complete path l2 (fun x hx => vBoolOrStr_complete (h2 x (by simp [hx])) _),
    optField_complete path l3 (fun x hx => vLibcValue_complete (h3 x (by simp [hx])) _),
    optField_complete path l4 (fun x hx => vFloatOrStr_complete (h4 x (by simp [hx])) _),
    optField_complete path l5 (fun s hs => vNonEmptyStr_complete _ (h5 s (by simp [hs]))),
    optField_complete path l6 (fun x hx => vPosFloatOrStr_complete (h6 x (by simp [hx])) _)]
  rfl

/-! ### Environment and Activation -/

/-- The environment table: `{features, solve-group}` (note the alias:
`solve_group` is addressed as `solve-group` in raw input). -/
structure Environment where
  features : Option (List String)
  solve_group : Option String
deriving DecidableEq, Repr

/-- Declared keys of an environment table, under their external
spellings. -/
def environmentFields : List String := ["features", "solve-group"]

def validateEnvironment (path : List String) : RawValue → Validated Environment
  | .table kvs =>
      Validated.withErrors (unknownErrs path environmentFields kvs)
        (Validated.vseq (Validated.vseq
          (.ok Environment.mk)
          (optField path kvs "features" (vList vNonEmptyStr)))
          (optField path kvs "solve-group" vNonEmptyStr))
  | _ => .err [⟨path, ViolationKind.TypeMismatch⟩]

def Environment.dumpKvs (t : Environment) : List (String × RawValue) :=
  dumpOpt "features" (t.features.map (fun xs => RawValue.list (xs.map RawValue.str))) ++
  dumpOpt "solve-group" (t.solve_group.map RawValue.str)

def Environment.dump (t : Environment) : RawValue := .table t.dumpKvs

def Environment.Valid (t : Environment) : Prop :=
  (∀ l ∈ t.features, ∀ s ∈ l, s ≠ "") ∧ (∀ s ∈ t.solve_group, s ≠ "")

theorem validateEnvironment_sound {path : List String} {r : RawValue}
    {t : Environment} (h : validateEnvironment path r = .ok t) : t.Valid := by
  cases r
  case table kvs =>
    simp only [validateEnvironment] at h
    obtain ⟨-, hc0⟩ := Validated.withErrors_ok h
    obtain ⟨g2, fsg, hc1, hsg, rfl⟩ := Validated.vseq_ok hc0
    obtain ⟨g1, ffeat, hg, hfeat, rfl⟩ := Validated.vseq_ok hc1
    cases hg
    exact ⟨optField_sound
        (fun _ _ _ hx => vList_sound (fun _ _ _ hs => vNonEmptyStr_sound hs) hx) hfeat,
      optField_sound (fun _ _ _ hx => vNonEmptyStr_sound hx) hsg⟩
  all_goals simp [validateEnvironment] at h

theorem validateEnvironment_complete {t : Environment} (ht : t.Valid)
    (path : List String) : validateEnvironment path t.dump = .ok t := by
  obtain ⟨h1, h2⟩ := ht
  have l1 : lookupKey t.dumpKvs "features" =
      t.features.map (fun xs => RawValue.list (xs.map RawValue.str)) := by
    simp [Environment.dumpKvs, List.append_assoc]
  have l2 : lookupKey t.dumpKvs "solve-group" = t.solve_group.map RawValue.str := by
    simp [Environment.dumpKvs, List.append_assoc]
  have hu : unknownErrs path environmentFields t.dumpKvs = [] := by
    simp [Environment.dumpKvs, environmentFields, List.append_assoc]
  rw [Environment.dump]
  simp only [validateEnvironment]
  rw [hu,
    optField_complete path l1 (fun xs hxs =>
      vList_complete (fun s hs pa => vNonEmptyStr_complete pa (h1 xs (by simp [hxs]) s hs)) _),
    optField_complete path l2 (fun s hs => vNonEmptyStr_complete _ (h2 s (by simp [hs])))]
  rfl

/-- An environment value at the manifest level: `Environment |
list[FeatureName]`. -/
inductive EnvValue where
  | env (e : Environment)
  | features (xs : List String)
deriving DecidableEq, Repr

def vEnvValue (path : List String) : RawValue → Validated EnvValue
  | .table kvs => (validateEnvironment path (.table kvs)).vmap EnvValue.env
  | .list xs => (vElems vNonEmptyStr path 0 xs).vmap EnvValue.features
  | _ => .err [⟨path, ViolationKind.ShapeMismatch⟩]

def EnvValue.dump : EnvValue → RawValue
  | .env e => e.dump
  | .features xs => .list (xs.map RawValue.str)

def EnvValue.Valid : EnvValue → Prop
  | .env e => e.Valid
  | .features xs => ∀ s ∈ xs, s ≠ ""

theorem vEnvValue_sound {path : List String} {r : RawValue} {m : EnvValue}
    (h : vEnvValue path r = .ok m) : m.Valid := by
  cases r
  case table kvs =>
    simp only [vEnvValue] at h
    obtain ⟨e, he, rfl⟩ := Validated.vmap_ok h
    exact validateEnvironment_sound he
  case list xs =>
    simp only [vEnvValue] at h
    obtain ⟨l, hl, rfl⟩ := Validated.vmap_ok h
    exact vElems_sound (fun _ _ _ hs => vNonEmptyStr_sound hs) path xs 0 l hl
  all_goals simp [vEnvValue] at h

theorem vEnvValue_complete {m : EnvValue} (hm : m.Valid) (path : List String) :
    vEnvValue path m.dump = .ok m := by
  cases m with
  | env e =>
    have he := validateEnvironment_complete (t := e) hm path
    rw [Environment.dump] at he
    show vEnvValue path (.table e.dumpKvs) = .ok (EnvValue.env e)
    simp only [vEnvValue]
    rw [he]
    rfl
  | features xs =>
    have hx := vElems_complete (f := vNonEmptyStr) (g := RawValue.str) xs
      (fun s hs p => vNonEmptyStr_complete p (hm s hs)) path 0
    show vEnvValue path (.list (xs.map RawValue.str)) = .ok (EnvValue.features xs)
    simp only [vEnvValue]
    rw [hx]
    rfl

/-- The activation table: `{scripts}`. -/
structure Activation where
  scripts : Option (List String)
deriving DecidableEq, Repr

/-- Declared keys of an activation table. -/
def activationFields : List String := ["scripts"]

def validateActivation (path : List String) : RawValue → Validated Activation
  | .table kvs =>
      Validated.withErrors (unknownErrs path activationFields kvs)
        (Validated.vseq
          (.ok Activation.mk)
          (optField path kvs "scripts" (vList vNonEmptyStr)))
  | _ => .err [⟨path, ViolationKind.TypeMismatch⟩]

def Activation.dumpKvs (t : Activation) : List (String × RawValue) :=
  dumpOpt "scripts" (t.scripts.map (fun xs => RawValue.list (xs.map RawValue.str)))

def Activation.dump (t : Activation) : RawValue := .table t.dumpKvs

def Activation.Valid (t : Activation) : Prop := ∀ l ∈ t.scripts, ∀ s ∈ l, s ≠ ""

theorem validateActivation_sound {path : List String} {r : RawValue}
    {t : Activation} (h : validateActivation path r = .ok t) : t.Valid := by
  cases r
  case table kvs =>
    simp only [validateActivation] at h
    obtain ⟨-, hc0⟩ := Validated.withErrors_ok h
    obtain ⟨g1, fscr, hg, hscr, rfl⟩ := Validated.vseq_ok hc0
    cases hg
    exact optField_sound
      (fun _ _ _ hx => vList_sound (fun _ _ _ hs => vNonEmptyStr_sound hs) hx) hscr
  all_goals simp [validateActivation] at h

theorem validateActivation_complete {t : Activation} (ht : t.Valid)
    (path : List String) : validateActivation path t.dump = .ok t := by
  have l1 : lookupKey t.dumpKvs "scripts" =
      t.scripts.map (fun xs => RawValue.list (xs.map RawValue.str)) := by
    simp [Activation.dumpKvs, List.append_assoc]
  have hu : unknownErrs path activationFields t.dumpKvs = [] := by
    simp [Activation.dumpKvs, activationFields, List.append_assoc]
  rw [Activation.dump]
  simp only [validateActivation]
  rw [hu,
    optField_complete path l1 (fun xs hxs =>
      vList_complete (fun s hs pa => vNonEmptyStr_complete pa (ht xs (by simp [hxs]) s hs)) _)]
  rfl

/-! ### Target -/

/-- A platform-specific override bundle.  The three conda-dependency
mappings use hyphenated external spellings for host and build. -/
structure Target where
  dependencies : Option (List (String × MatchSpec))
  host_dependencies : Option (List (String × MatchSpec))
  build_dependencies : Option (List (String × MatchSpec))
  pypi_dependencies : Option (List (String × PyPIRequirement))
  tasks : Option (List (String × TaskValue))
  activation : Option Activation
deriving DecidableEq, Repr

/-- Declared keys of a target table, under their external spellings. -/
def targetFields : List String :=
  ["dependencies", "host-dependencies", "build-dependencies",
   "pypi-dependencies", "tasks", "activation"]

def validateTarget (path : List String) : RawValue → Validated Target
  | .table kvs =>
      Validated.withErrors (unknownErrs path targetFields kvs)
        (Validated.vseq (Validated.vseq (Validated.vseq (Validated.vseq
         (Validated.vseq (Validated.vseq
          (.ok Target.mk)
          (optField path kvs "dependencies" (vDict vMatchSpec)))
          (optField path kvs "host-dependencies" (vDict vMatchSpec)))
          (optField path kvs "build-dependencies" (vDict vMatchSpec)))
          (optField path kvs "pypi-dependencies" (vDict vPyPIRequirement)))
          (optField path kvs "tasks" (vDict vTaskValue)))
          (optField path kvs "activation" validateActivation))
  | _ => .err [⟨path, ViolationKind.TypeMismatch⟩]

def Target.dumpKvs (t : Target) : List (String × RawValue) :=
  dumpOpt "dependencies" (t.dependencies.map (dumpDict MatchSpec.dump)) ++
  dumpOpt "host-dependencies" (t.host_dependencies.map (dumpDict MatchSpec.dump)) ++
  dumpOpt "build-dependencies" (t.build_dependencies.map (dumpDict MatchSpec.dump)) ++
  dumpOpt "pypi-dependencies" (t.pypi_dependencies.map (dumpDict PyPIRequirement.dump)) ++
  dumpOpt "tasks" (t.tasks.map (dumpDict TaskValue.dump)) ++
  dumpOpt "activation" (t.activation.map Activation.dump)

def Target.dump (t : Target) : RawValue := .table t.dumpKvs

def Target.Valid (t : Target) : Prop :=
  (∀ l ∈ t.dependencies, ∀ p ∈ l, p.1 ≠ "" ∧ p.2.Valid) ∧
  (∀ l ∈ t.host_dependencies, ∀ p ∈ l, p.1 ≠ "" ∧ p.2.Valid) ∧
  (∀ l ∈ t.build_dependencies, ∀ p ∈ l, p.1 ≠ "" ∧ p.2.Valid) ∧
  (∀ l ∈ t.pypi_dependencies, ∀ p ∈ l, p.1 ≠ "" ∧ p.2.Valid) ∧
  (∀ l ∈ t.tasks, ∀ p ∈ l, p.1 ≠ "" ∧ p.2.Valid) ∧
  (∀ a ∈ t.activation, a.Valid)

theorem validateTarget_sound {path : List String} {r : RawValue}
    {t : Target} (h : validateTarget path r = .ok t) : t.Valid := by
  cases r
  case table kvs =>
    simp only [validateTarget] at h
    obtain ⟨-, hc0⟩ := Validated.withErrors_ok h
    obtain ⟨g6, fact, hc1, hact, rfl⟩ := Validated.vseq_ok hc0
    obtain ⟨g5, ftasks, hc2, htasks, rfl⟩ := Validated.vseq_ok hc1
    obtain ⟨g4, fpypi, hc3, hpypi, rfl⟩ := Validated.vseq_ok hc2
    obtain ⟨g3, fbuild, hc4, hbuild, rfl⟩ := Validated.vseq_ok hc3
    obtain ⟨g2, fhost, hc5, hhost, rfl⟩ := Validated.vseq_ok hc4
    obtain ⟨g1, fdeps, hg, hdeps, rfl⟩ := Validated.vseq_ok hc5
    cases hg
    exact ⟨optField_sound
        (fun _ _ _ hx => vDict_sound (fun _ _ _ hm => vMatchSpec_sound hm) hx) hdeps,
      optField_sound
        (fun _ _ _ hx => vDict_sound (fun _ _ _ hm => vMatchSpec_sound hm) hx) hhost,
      optField_sound
        (fun _ _ _ hx => vDict_sound (fun _ _ _ hm => vMatchSpec_sound hm) hx) hbuild,
      optField_sound
        (fun _ _ _ hx => vDict_sound (fun _ _ _ hm => vPyPIRequirement_sound hm) hx) hpypi,
      optField_sound
        (fun _ _ _ hx => vDict_sound (fun _ _ _ hm => vTaskValue_sound hm) hx) htasks,
      optField_sound (fun _ _ _ hx => validateActivation_sound hx) hact⟩
  all_goals simp [validateTarget] at h

theorem validateTarget_complete {t : Target} (ht : t.Valid)
    (path : List String) : validateTarget path t.dump = .ok t := by
  obtain ⟨h1, h2, h3, h4, h5, h6⟩ := ht
  have l1 : lookupKey t.dumpKvs "dependencies" =
      t.dependencies.map (dumpDict MatchSpec.dump) := by
    simp [Target.dumpKvs, List.append_assoc]
  have l2 : lookupKey t.dumpKvs "host-dependencies" =
      t.host_dependencies.map (dumpDict MatchSpec.dump) := by
    simp [Target.dumpKvs, List.append_assoc]
  have l3 : lookupKey t.dumpKvs "build-dependencies" =
      t.build_dependencies.map (dumpDict MatchSpec.dump) := by
    simp [Target.dumpKvs, List.append_assoc]
  have l4 : lookupKey t.dumpKvs "pypi-dependencies" =
      t.pypi_dependencies.map (dumpDict PyPIRequirement.dump) := by
    simp [Target.dumpKvs, List.append_assoc]
  have l5 : lookupKey t.dumpKvs "tasks" = t.tasks.map (dumpDict TaskValue.dump) := by
    simp [Target.dumpKvs, List.append_assoc]
  have l6 : lookupKey t.dumpKvs "activation" = t.activation.map Activation.dump := by
    simp [Target.dumpKvs, List.append_assoc]
  have hu : unknownErrs path targetFields t.dumpKvs = [] := by
    simp [Target.dumpKvs, targetFields, List.append_assoc]
  rw [Target.dump]
  simp only [validateTarget]
  rw [hu,
    optField_complete path l1 (fun l hl =>
      vDict_complete (fun p hp => ⟨(h1 l (by simp [hl]) p hp).1,
        fun pa => vMatchSpec_complete (h1 l (by simp [hl]) p hp).2 pa⟩) _),
    optField_complete path l2 (fun l hl =>
      vDict_complete (fun p hp => ⟨(h2 l (by simp [hl]) p hp).1,
        fun pa => vMatchSpec_complete (h2 l (by simp [hl]) p hp).2 pa⟩) _),
    optField_complete path l3 (fun l hl =>
      vDict_complete (fun p hp => ⟨(h3 l (by simp [hl]) p hp).1,
        fun pa => vMatchSpec_complete (h3 l (by simp [hl]) p hp).2 pa⟩) _),
    optField_complete path l4 (fun l hl =>
      vDict_complete (fun p hp => ⟨(h4 l (by simp [hl]) p hp).1,
        fun pa => vPyPIRequirement_complete (h4 l (by simp [hl]) p hp).2 pa⟩) _),
    optField_complete path l5 (fun l hl =>
      vDict_complete (fun p hp => ⟨(h5 l (by simp [hl]) p hp).1,
        fun pa => vTaskValue_complete (h5 l (by simp [hl]) p hp).2 pa⟩) _),
    optField_complete path l6 (fun a ha =>
      validateActivation_complete (h6 a (by simp [ha])) _)]
  rfl

/-! ### Feature -/

/-- A named, composable bundle: all Target fields plus channels,
platforms, system requirements, and per-platform targets. -/
structure Feature where
  channels : Option (List Channel)
  platforms : Option (List String)
  dependencies : Option (List (String × MatchSpec))
  host_dependencies : Option (List (String × MatchSpec))
  build_dependencies : Option (List (String × MatchSpec))
  pypi_dependencies : Option (List (String × PyPIRequirement))
  tasks : Option (List (String × TaskValue))
  activation : Option Activation
  system_requirements : Option SystemRequirements
  target : Option (List (String × Target))
deriving DecidableEq, Repr

/-- Declared keys of a feature table, under their external spellings. -/
def featureFields : List String :=
  ["channels", "platforms", "dependencies", "host-dependencies",
   "build-dependencies", "pypi-dependencies", "tasks", "activation",
   "system-requirements", "target"]

def validateFeature (path : List String) : RawValue → Validated Feature
  | .table kvs =>
      Validated.withErrors (unknownErrs path featureFields kvs)
        (Validated.vseq (Validated.vseq (Validated.vseq (Validated.vseq
         (Validated.vseq (Validated.vseq (Validated.vseq (Validated.vseq
         (Validated.vseq (Validated.vseq
          (.ok Feature.mk)
          (optField path kvs "channels" (vList vChannel)))
          (optField path kvs "platforms" (vList vNonEmptyStr)))
          (optField path kvs "dependencies" (vDict vMatchSpec)))
          (optField path kvs "host-dependencies" (vDict vMatchSpec)))
          (optField path kvs "build-dependencies" (vDict vMatchSpec)))
          (optField path kvs "pypi-dependencies" (vDict vPyPIRequirement)))
          (optField path kvs "tasks" (vDict vTaskValue)))
          (optField path kvs "activation" validateActivation))
          (optField path kvs "system-requirements" validateSystemRequirements))
          (optField path kvs "target" (vDict validateTarget)))
  | _ => .err [⟨path, ViolationKind.TypeMismatch⟩]

def Feature.dumpKvs (t : Feature) : List (String × RawValue) :=
  dumpOpt "channels" (t.channels.map (fun cs => RawValue.list (cs.map Channel.dump))) ++
  dumpOpt "platforms" (t.platforms.map (fun xs => RawValue.list (xs.map RawValue.str))) ++
  dumpOpt "dependencies" (t.dependencies.map (dumpDict MatchSpec.dump)) ++
  dumpOpt "host-dependencies" (t.host_dependencies.map (dumpDict MatchSpec.dump)) ++
  dumpOpt "build-dependencies" (t.build_dependencies.map (dumpDict MatchSpec.dump)) ++
  dumpOpt "pypi-dependencies" (t.pypi_dependencies.map (dumpDict PyPIRequirement.dump)) ++
  dumpOpt "tasks" (t.tasks.map (dumpDict TaskValue.dump)) ++
  dumpOpt "activation" (t.activation.map Activation.dump) ++
  dumpOpt "system-requirements" (t.system_requirements.map SystemRequirements.dump) ++
  dumpOpt "target" (t.target.map (dumpDict Target.dump))

def Feature.dump (t : Feature) : RawValue := .table t.dumpKvs

def Feature.Valid (t : Feature) : Prop :=
  (∀ cs ∈ t.channels, ∀ c ∈ cs, c.Valid) ∧
  (∀ xs ∈ t.platforms, ∀ s ∈ xs, s ≠ "") ∧
  (∀ l ∈ t.dependencies, ∀ p ∈ l, p.1 ≠ "" ∧ p.2.Valid) ∧
  (∀ l ∈ t.host_dependencies, ∀ p ∈ l, p.1 ≠ "" ∧ p.2.Valid) ∧
  (∀ l ∈ t.build_dependencies, ∀ p ∈ l, p.1 ≠ "" ∧ p.2.Valid) ∧
  (∀ l ∈ t.pypi_dependencies, ∀ p ∈ l, p.1 ≠ "" ∧ p.2.Valid) ∧
  (∀ l ∈ t.tasks, ∀ p ∈ l, p.1 ≠ "" ∧ p.2.Valid) ∧
  (∀ a ∈ t.activation, a.Valid) ∧
  (∀ s ∈ t.system_requirements, s.Valid) ∧
  (∀ l ∈ t.target, ∀ p ∈ l, p.1 ≠ "" ∧ p.2.Valid)

theorem validateFeature_sound {path : List String} {r : RawValue}
    {t : Feature} (h : validateFeature path r = .ok t) : t.Valid := by
  cases r
  case table kvs =>
    simp only [validateFeature] at h
    obtain ⟨-, hc0⟩ := Validated.withErrors_ok h
    obtain ⟨g10, ftgt, hc1, htgt, rfl⟩ := Validated.vseq_ok hc0
    obtain ⟨g9, fsys, hc2, hsys, rfl⟩ := Validated.vseq_ok hc1
    obtain ⟨g8, fact, hc3, hact, rfl⟩ := Validated.vseq_ok hc2
    obtain ⟨g7, ftasks, hc4, htasks, rfl⟩ := Validated.vseq_ok hc3
    obtain ⟨g6, fpypi, hc5, hpypi, rfl⟩ := Validated.vseq_ok hc4
    obtain ⟨g5, fbuild, hc6, hbuild, rfl⟩ := Validated.vseq_ok hc5
    obtain ⟨g4, fhost, hc7, hhost, rfl⟩ := Validated.vseq_ok hc6
    obtain ⟨g3, fdeps, hc8, hdeps, rfl⟩ := Validated.vseq_ok hc7
    obtain ⟨g2, fplat, hc9, hplat, rfl⟩ := Validated.vseq_ok hc8
    obtain ⟨g1, fchan, hg, hchan, rfl⟩ := Validated.vseq_ok hc9
    cases hg
    exact ⟨optField_sound
        (fun _ _ _ hx => vList_sound (fun _ _ _ hc => vChannel_sound hc) hx) hchan,
      optField_sound
        (fun _ _ _ hx => vList_sound (fun _ _ _ hs => vNonEmptyStr_sound hs) hx) hplat,
      optField_sound
        (fun _ _ _ hx => vDict_sound (fun _ _ _ hm => vMatchSpec_sound hm) hx) hdeps,
      optField_sound
        (fun _ _ _ hx => vDict_sound (fun _ _ _ hm => vMatchSpec_sound hm) hx) hhost,
      optField_sound
        (fun _ _ _ hx => vDict_sound (fun _ _ _ hm => vMatchSpec_sound hm) hx) hbuild,
      optField_sound
        (fun _ _ _ hx => vDict_sound (fun _ _ _ hm => vPyPIRequirement_sound hm) hx) hpypi,
      optField_sound
        (fun _ _ _ hx => vDict_sound (fun _ _ _ hm => vTaskValue_sound hm) hx) htasks,
      optField_sound (fun _ _ _ hx => validateActivation_sound hx) hact,
      optField_sound (fun _ _ _ hx => validateSystemRequirements_sound hx) hsys,
      optField_sound
        (fun _ _ _ hx => vDict_sound (fun _ _ _ hm => validateTarget_sound hm) hx) htgt⟩
  all_goals simp [validateFeature] at h

theorem validateFeature_complete {t : Feature} (ht : t.Valid)
    (path : List String) : validateFeature path t.dump = .ok t := by
  obtain ⟨h1, h2, h3, h4, h5, h6, h7, h8, h9, h10⟩ := ht
  have l1 : lookupKey t.dumpKvs "channels" =
      t.channels.map (fun cs => RawValue.list (cs.map Channel.dump)) := by
    simp [Feature.dumpKvs, List.append_assoc]
  have l2 : lookupKey t.dumpKvs "platforms" =
      t.platforms.map (fun xs => RawValue.list (xs.map RawValue.str)) := by
    simp [Feature.dumpKvs, List.append_assoc]
  have l3 : lookupKey t.dumpKvs "dependencies" =
      t.dependencies.map (dumpDict MatchSpec.dump) := by
    simp [Feature.dumpKvs, List.append_assoc]
  have l4 : lookupKey t.dumpKvs "host-dependencies" =
      t.host_dependencies.map (dumpDict MatchSpec.dump) := by
    simp [Feature.dumpKvs, List.append_assoc]
  have l5 : lookupKey t.dumpKvs "build-dependencies" =
      t.build_dependencies.map (dumpDict MatchSpec.dump) := by
    simp [Feature.dumpKvs, List.append_assoc]
  have l6 : lookupKey t.dumpKvs "pypi-dependencies" =
      t.pypi_dependencies.map (dumpDict PyPIRequirement.dump) := by
    simp [Feature.dumpKvs, List.append_assoc]
  have l7 : lookupKey t.dumpKvs "tasks" = t.tasks.map (dumpDict TaskValue.dump) := by
    simp [Feature.dumpKvs, List.append_assoc]
  have l8 : lookupKey t.dumpKvs "activation" = t.activation.map Activation.dump := by
    simp [Feature.dumpKvs, List.append_assoc]
  have l9 : lookupKey t.dumpKvs "system-requirements" =
      t.system_requirements.map SystemRequirements.dump := by
    simp [Feature.dumpKvs, List.append_assoc]
  have l10 : lookupKey t.dumpKvs "target" = t.target.map (dumpDict Target.dump) := by
    simp [Feature.dumpKvs, List.append_assoc]
  have hu : unknownErrs path featureFields t.dumpKvs = [] := by
    simp [Feature.dumpKvs, featureFields, List.append_assoc]
  rw [Feature.dump]
  simp only [validateFeature]
  rw [hu,
    optField_complete path l1 (fun cs hcs =>
      vList_complete (fun c hc pa => vChannel_complete (h1 cs (by simp [hcs]) c hc) pa) _),
    optField_complete path l2 (fun xs hxs =>
      vList_complete (fun s hs pa => vNonEmptyStr_complete pa (h2 xs (by simp [hxs]) s hs)) _),
    optField_complete path l3 (fun l hl =>
      vDict_complete (fun p hp => ⟨(h3 l (by simp [hl]) p hp).1,
        fun pa => vMatchSpec_complete (h3 l (by simp [hl]) p hp).2 pa⟩) _),
    optField_complete path l4 (fun l hl =>
      vDict_complete (fun p hp => ⟨(h4 l (by simp [hl]) p hp).1,
        fun pa => vMatchSpec_complete (h4 l (by simp [hl]) p hp).2 pa⟩) _),
    optField_complete path l5 (fun l hl =>
      vDict_complete (fun p hp => ⟨(h5 l (by simp [hl]) p hp).1,
        fun pa => vMatchSpec_complete (h5 l (by simp [hl]) p hp).2 pa⟩) _),
    optField_complete path l6 (fun l hl =>
      vDict_complete (fun p hp => ⟨(h6 l (by simp [hl]) p hp).1,
        fun pa => vPyPIRequirement_complete (h6 l (by simp [hl]) p hp).2 pa⟩) _),
    optField_complete path l7 (fun l hl =>
      vDict_complete (fun p hp => ⟨(h7 l (by simp [hl]) p hp).1,
        fun pa => vTaskValue_complete (h7 l (by simp [hl]) p hp).2 pa⟩) _),
    optField_complete path l8 (fun a ha =>
      validateActivation_complete (h8 a (by simp [ha])) _),
    optField_complete path l9 (fun s hs =>
      validateSystemRequirements_complete (h9 s (by simp [hs])) _),
    optField_complete path l10 (fun l hl =>
      vDict_complete (fun p hp => ⟨(h10 l (by simp [hl]) p hp).1,
        fun pa => validateTarget_complete (h10 l (by simp [hl]) p hp).2 pa⟩) _)]
  rfl

/-! ### The root Manifest -/

/-- The root manifest: `project` is the only required top-level field. -/
structure BaseManifest where
  project : Project
  dependencies : Option (List (String × MatchSpec))
  host_dependencies : Option (List (String × MatchSpec))
  build_dependencies : Option (List (String × MatchSpec))
  pypi_dependencies : Option (List (String × PyPIRequirement))
  tasks : Option (List (String × TaskValue))
  system_requirements : Option SystemRequirements
  environments : Option (List (String × EnvValue))
  feature : Option (List (String × Feature))
  activation : Option Activation
  target : Option (List (String × Target))
deriving DecidableEq, Repr

/-- Declared top-level keys of the manifest, under their external
spellings. -/
def baseManifestFields : List String :=
  ["project", "dependencies", "host-dependencies", "build-dependencies",
   "pypi-dependencies", "tasks", "system-requirements", "environments",
   "feature", "activation", "target"]

/-- Validate a full raw document as a manifest (the validation entry
point). -/
def validateBaseManifest (path : List String) : RawValue → Validated BaseManifest
  | .table kvs =>
      Validated.withErrors (unknownErrs path baseManifestFields kvs)
        (Validated.vseq (Validated.vseq (Validated.vseq (Validated.vseq
         (Validated.vseq (Validated.vseq (Validated.vseq (Validated.vseq
         (Validated.vseq (Validated.vseq (Validated.vseq
          (.ok BaseManifest.mk)
          (reqField path kvs "project" validateProject))
          (optField path kvs "dependencies" (vDict vMatchSpec)))
          (optField path kvs "host-dependencies" (vDict vMatchSpec)))
          (optField path kvs "build-dependencies" (vDict vMatchSpec)))
          (optField path kvs "pypi-dependencies" (vDict vPyPIRequirement)))
          (optField path kvs "tasks" (vDict vTaskValue)))
          (optField path kvs "system-requirements" validateSystemRequirements))
          (optField path kvs "environments" (vDict vEnvValue)))
          (optField path kvs "feature" (vDict validateFeature)))
          (optField path kvs "activation" validateActivation))
          (optField path kvs "target" (vDict validateTarget)))
  | _ => .err [⟨path, ViolationKind.TypeMismatch⟩]

def BaseManifest.dumpKvs (m : BaseManifest) : List (String × RawValue) :=
  [("project", m.project.dump)] ++
  dumpOpt "dependencies" (m.dependencies.map (dumpDict MatchSpec.dump)) ++
  dumpOpt "host-dependencies" (m.host_dependencies.map (dumpDict MatchSpec.dump)) ++
  dumpOpt "build-dependencies" (m.build_dependencies.map (dumpDict MatchSpec.dump)) ++
  dumpOpt "pypi-dependencies" (m.pypi_dependencies.map (dumpDict PyPIRequirement.dump)) ++
  dumpOpt "tasks" (m.tasks.map (dumpDict TaskValue.dump)) ++
  dumpOpt "system-requirements" (m.system_requirements.map SystemRequirements.dump) ++
  dumpOpt "environments" (m.environments.map (dumpDict EnvValue.dump)) ++
  dumpOpt "feature" (m.feature.map (dumpDict Feature.dump)) ++
  dumpOpt "activation" (m.activation.map Activation.dump) ++
  dumpOpt "target" (m.target.map (dumpDict Target.dump))

/-- Serialize a manifest back to its raw document form (absent fields
omitted). -/
def BaseManifest.dump (m : BaseManifest) : RawValue := .table m.dumpKvs

def BaseManifest.Valid (m : BaseManifest) : Prop :=
  m.project.Valid ∧
  (∀ l ∈ m.dependencies, ∀ p ∈ l, p.1 ≠ "" ∧ p.2.Valid) ∧
  (∀ l ∈ m.host_dependencies, ∀ p ∈ l, p.1 ≠ "" ∧ p.2.Valid) ∧
  (∀ l ∈ m.build_dependencies, ∀ p ∈ l, p.1 ≠ "" ∧ p.2.Valid) ∧
  (∀ l ∈ m.pypi_dependencies, ∀ p ∈ l, p.1 ≠ "" ∧ p.2.Valid) ∧
  (∀ l ∈ m.tasks, ∀ p ∈ l, p.1 ≠ "" ∧ p.2.Valid) ∧
  (∀ s ∈ m.system_requirements, s.Valid) ∧
  (∀ l ∈ m.environments, ∀ p ∈ l, p.1 ≠ "" ∧ p.2.Valid) ∧
  (∀ l ∈ m.feature, ∀ p ∈ l, p.1 ≠ "" ∧ p.2.Valid) ∧
  (∀ a ∈ m.activation, a.Valid) ∧
  (∀ l ∈ m.target, ∀ p ∈ l, p.1 ≠ "" ∧ p.2.Valid)

theorem validateBaseManifest_sound {path : List String} {r : RawValue}
    {m : BaseManifest} (h : validateBaseManifest path r = .ok m) : m.Valid := by
  cases r
  case table kvs =>
    simp only [validateBaseManifest] at h
    obtain ⟨-, hc0⟩ := Validated.withErrors_ok h
    obtain ⟨g11, ftgt, hc1, htgt, rfl⟩ := Validated.vseq_ok hc0
    obtain ⟨g10, fact, hc2, hact, rfl⟩ := Validated.vseq_ok hc1
    obtain ⟨g9, ffeat, hc3, hfeat, rfl⟩ := Validated.vseq_ok hc2
    obtain ⟨g8, fenv, hc4, henv, rfl⟩ := Validated.vseq_ok hc3
    obtain ⟨g7, fsys, hc5, hsys, rfl⟩ := Validated.vseq_ok hc4
    obtain ⟨g6, ftasks, hc6, htasks, rfl⟩ := Validated.vseq_ok hc5
    obtain ⟨g5, fpypi, hc7, hpypi, rfl⟩ := Validated.vseq_ok hc6
    obtain ⟨g4, fbuild, hc8, hbuild, rfl⟩ := Validated.vseq_ok hc7
    obtain ⟨g3, fhost, hc9, hhost, rfl⟩ := Validated.vseq_ok hc8
    obtain ⟨g2, fdeps, hc10, hdeps, rfl⟩ := Validated.vseq_ok hc9
    obtain ⟨g1, fproj, hg, hproj, rfl⟩ := Validated.vseq_ok hc10
    cases hg
    obtain ⟨v, hl, hv⟩ := reqField_ok hproj
    exact ⟨validateProject_sound hv,
      optField_sound
        (fun _ _ _ hx => vDict_sound (fun _ _ _ hm => vMatchSpec_sound hm) hx) hdeps,
      optField_sound
        (fun _ _ _ hx => vDict_sound (fun _ _ _ hm => vMatchSpec_sound hm) hx) hhost,
      optField_sound
        (fun _ _ _ hx => vDict_sound (fun _ _ _ hm => vMatchSpec_sound hm) hx) hbuild,
      optField_sound
        (fun _ _ _ hx => vDict_sound (fun _ _ _ hm => vPyPIRequirement_sound hm) hx) hpypi,
      optField_sound
        (fun _ _ _ hx => vDict_sound (fun _ _ _ hm => vTaskValue_sound hm) hx) htasks,
      optField_sound (fun _ _ _ hx => validateSystemRequirements_sound hx) hsys,
      optField_sound
        (fun _ _ _ hx => vDict_sound (fun _ _ _ hm => vEnvValue_sound hm) hx) henv,
      optField_sound
        (fun _ _ _ hx => vDict_sound (fun _ _ _ hm => validateFeature_sound hm) hx) hfeat,
      optField_sound (fun _ _ _ hx => validateActivation_sound hx) hact,
      optField_sound
        (fun _ _ _ hx => vDict_sound (fun _ _ _ hm => validateTarget_sound hm) hx) htgt⟩
  all_goals simp [validateBaseManifest] at h

theorem validateBaseManifest_complete {m : BaseManifest} (hm : m.Valid)
    (path : List String) : validateBaseManifest path m.dump = .ok m := by
  obtain ⟨h0, h1, h2, h3, h4, h5, h6, h7, h8, h9, h10⟩ := hm
  have l0 : lookupKey m.dumpKvs "project" = some m.project.dump := by
    simp [BaseManifest.dumpKvs, List.append_assoc]
  have l1 : lookupKey m.dumpKvs "dependencies" =
      m.dependencies.map (dumpDict MatchSpec.dump) := by
    simp [BaseManifest.dumpKvs, List.append_assoc]
  have l2 : lookupKey m.dumpKvs "host-dependencies" =
      m.host_dependencies.map (dumpDict MatchSpec.dump) := by
    simp [BaseManifest.dumpKvs, List.append_assoc]
  have l3 : lookupKey m.dumpKvs "build-dependencies" =
      m.build_dependencies.map (dumpDict MatchSpec.dump) := by
    simp [BaseManifest.dumpKvs, List.append_assoc]
  have l4 : lookupKey m.dumpKvs "pypi-dependencies" =
      m.pypi_dependencies.map (dumpDict PyPIRequirement.dump) := by
    simp [BaseManifest.dumpKvs, List.append_assoc]
  have l5 : lookupKey m.dumpKvs "tasks" = m.tasks.map (dumpDict TaskValue.dump) := by
    simp [BaseManifest.dumpKvs, List.append_assoc]
  have l6 : lookupKey m.dumpKvs "system-requirements" =
      m.system_requirements.map SystemRequirements.dump := by
    simp [BaseManifest.dumpKvs, List.append_assoc]
  have l7 : lookupKey m.dumpKvs "environments" =
      m.environments.map (dumpDict EnvValue.dump) := by
    simp [BaseManifest.dumpKvs, List.append_assoc]
  have l8 : lookupKey m.dumpKvs "feature" = m.feature.map (dumpDict Feature.dump) := by
    simp [BaseManifest.dumpKvs, List.append_assoc]
  have l9 : lookupKey m.dumpKvs "activation" = m.activation.map Activation.dump := by
    simp [BaseManifest.dumpKvs, List.append_assoc]
  have l10 : lookupKey m.dumpKvs "target" = m.target.map (dumpDict Target.dump) := by
    simp [BaseManifest.dumpKvs, List.append_assoc]
  have hu : unknownErrs path baseManifestFields m.dumpKvs = [] := by
    simp [BaseManifest.dumpKvs, baseManifestFields, List.append_assoc]
  rw [BaseManifest.dump]
  simp only [validateBaseManifest]
  rw [hu,
    reqField_complete path l0 (validateProject_complete h0 (path ++ ["project"])),
    optField_complete path l1 (fun l hl =>
      vDict_complete (fun p hp => ⟨(h1 l (by simp [hl]) p hp).1,
        fun pa => vMatchSpec_complete (h1 l (by simp [hl]) p hp).2 pa⟩) _),
    optField_complete path l2 (fun l hl =>
      vDict_complete (fun p hp => ⟨(h2 l (by simp [hl]) p hp).1,
        fun pa => vMatchSpec_complete (h2 l (by simp [hl]) p hp).2 pa⟩) _),
    optField_complete path l3 (fun l hl =>
      vDict_complete (fun p hp => ⟨(h3 l (by simp [hl]) p hp).1,
        fun pa => vMatchSpec_complete (h3 l (by simp [hl]) p hp).2 pa⟩) _),
    optField_complete path l4 (fun l hl =>
      vDict_complete (fun p hp => ⟨(h4 l (by simp [hl]) p hp).1,
        fun pa => vPyPIRequirement_complete (h4 l (by simp [hl]) p hp).2 pa⟩) _),
    optField_complete path l5 (fun l hl =>
      vDict_complete (fun p hp => ⟨(h5 l (by simp [hl]) p hp).1,
        fun pa => vTaskValue_complete (h5 l (by simp [hl]) p hp).2 pa⟩) _),
    optField_complete path l6 (fun s hs =>
      validateSystemRequirements_complete (h6 s (by simp [hs])) _),
    optField_complete path l7 (fun l hl =>
      vDict_complete (fun p hp => ⟨(h7 l (by simp [hl]) p hp).1,
        fun pa => vEnvValue_complete (h7 l (by simp [hl]) p hp).2 pa⟩) _),
    optField_complete path l8 (fun l hl =>
      vDict_complete (fun p hp => ⟨(h8 l (by simp [hl]) p hp).1,
        fun pa => validateFeature_complete (h8 l (by simp [hl]) p hp).2 pa⟩) _),
    optField_complete path l9 (fun a ha =>
      validateActivation_complete (h9 a (by simp [ha])) _),
    optField_complete path l10 (fun l hl =>
      vDict_complete (fun p hp => ⟨(h10 l (by simp [hl]) p hp).1,
        fun pa => validateTarget_complete (h10 l (by simp [hl]) p hp).2 pa⟩) _)]
  rfl

/-! ### Closed-world rejection, error counting, and the `GitUrl` pattern -/

/-- A validator rejects unknown keys: any table holding an undeclared key
fails, and the violation list contains an `UnknownField` naming that
key. -/
def rejectsUnknown (validate : List String → RawValue → Validated α)
    (fields : List String) : Prop :=
  ∀ path kvs k v, (k, v) ∈ kvs → k ∉ fields →
    ∃ es, validate path (.table kvs) = .err es ∧
      (⟨path ++ [k], ViolationKind.UnknownField⟩ : Violation) ∈ es

theorem rejectsUnknown_shape {α : Type} {validate : List String → RawValue → Validated α}
    {fields : List String}
    (hshape : ∀ path kvs, ∃ core, validate path (.table kvs) =
      Validated.withErrors (unknownErrs path fields kvs) core) :
    rejectsUnknown validate fields := by
  intro path kvs k v hmem hk
  obtain ⟨core, hc⟩ := hshape path kvs
  rw [hc]
  exact Validated.withErrors_err_mem (mem_unknownErrs hmem hk) core

/-- Number of undeclared keys of a raw table with respect to a declared
field list. -/
def unknownCount (declared : List String) (kvs : List (String × RawValue)) : Nat :=
  ((kvs.map Prod.fst).filter (fun k => !(declared.contains k))).length

theorem unknownErrs_length (path declared : List String)
    (kvs : List (String × RawValue)) :
    (unknownErrs path declared kvs).length = unknownCount declared kvs := by
  simp [unknownErrs, unknownCount]

/-- Number of required project fields absent from a raw table (`name` and
`platforms` are the required fields of `Project`). -/
def missingProjectCount (kvs : List (String × RawValue)) : Nat :=
  (if (lookupKey kvs "name").isNone then 1 else 0) +
  (if (lookupKey kvs "platforms").isNone then 1 else 0)

/-- Number of required manifest fields absent from a raw table (`project`
is the only required field of the root). -/
def missingManifestCount (kvs : List (String × RawValue)) : Nat :=
  if (lookupKey kvs "project").isNone then 1 else 0

theorem validateProject_errors_length (path : List String)
    (kvs : List (String × RawValue)) :
    (validateProject path (.table kvs)).errors.length ≥
      unknownCount projectFields kvs + missingProjectCount kvs := by
  have hn := reqField_errors_length path kvs "name" vNonEmptyStr
  have hp := reqField_errors_length path kvs "platforms" (vList vNonEmptyStr)
  have hu := unknownErrs_length path projectFields kvs
  simp only [validateProject, Validated.errors_withErrors, Validated.errors_vseq,
    Validated.errors_ok, List.length_append, List.nil_append, missingProjectCount,
    List.length_nil]
  omega

theorem validateBaseManifest_errors_length (path : List String)
    (kvs : List (String × RawValue)) :
    (validateBaseManifest path (.table kvs)).errors.length ≥
      unknownCount baseManifestFields kvs + missingManifestCount kvs := by
  have hq := reqField_errors_length path kvs "project" validateProject
  have hu := unknownErrs_length path baseManifestFields kvs
  simp only [validateBaseManifest, Validated.errors_withErrors, Validated.errors_vseq,
    Validated.errors_ok, List.length_append, List.nil_append, missingManifestCount,
    List.length_nil]
  omega

theorem errors_nil_of_ok {v : Validated α} {a : α} (h : v = .ok a) :
    v.errors = [] := by
  subst h; rfl

/-- The word-character class `\w` of the source regex. -/
def wordChar (c : Char) : Bool := c.isAlphanum || c = '_'

/-- The tail character class `[\w\.@:\/\x5c-~]` of the `GitUrl` regex. -/
def gitUrlTailChar (c : Char) : Bool :=
  wordChar c || c = '.' || c = '@' || c = ':' || c = '/' ||
    (decide ('\\' ≤ c) && decide (c ≤ '~'))

/-- The head alternatives of the `GitUrl` regex:
`(git|ssh|http(s)?)` or `git@[\w\.]+`. -/
def gitUrlHead (s : String) : Prop :=
  s ∈ (["git", "ssh", "http", "https"] : List String) ∨
  (∃ w : String, s = "git@" ++ w ∧ w ≠ "" ∧
    w.data.all (fun c => wordChar c || c = '.') = true)

/-- Unanchored match of the `GitUrl` pattern
`((git|ssh|http(s)?)|(git@[\w\.]+))(:(\/\/)?)([\w\.@:\/\x5c-~]+)` from the
source: some substring decomposes into a head alternative, a `:` or `://`
separator, and a nonempty tail of tail-class characters.  The source
defines this constraint but applies it to no field of any entity. -/
def gitUrlMatch (s : String) : Prop :=
  ∃ pre head sep tail post : String,
    s = pre ++ head ++ sep ++ tail ++ post ∧
    gitUrlHead head ∧ (sep = ":" ∨ sep = "://") ∧
    tail ≠ "" ∧ tail.data.all gitUrlTailChar = true

/-! ### Claim theorems -/

/-- Claim C1: for every entity of the model and every input mapping
containing a key not in that entity's declared field set (external
spellings), validating the mapping as that entity fails and the violation
list contains an `UnknownField` violation naming that key. -/
theorem closed_world_unknown_field :
    rejectsUnknown validateChannelInlineTable channelInlineTableFields ∧
    rejectsUnknown validateProject projectFields ∧
    rejectsUnknown validateMatchspecTable matchspecTableFields ∧
    rejectsUnknown validatePyPIRequirementTable pypiRequirementTableFields ∧
    rejectsUnknown validateTaskInlineTable taskInlineTableFields ∧
    rejectsUnknown validateLibcFamily libcFamilyFields ∧
    rejectsUnknown validateSystemRequirements systemRequirementsFields ∧
    rejectsUnknown validateEnvironment environmentFields ∧
    rejectsUnknown validateActivation activationFields ∧
    rejectsUnknown validateTarget targetFields ∧
    rejectsUnknown validateFeature featureFields ∧
    rejectsUnknown validateBaseManifest baseManifestFields :=
  ⟨rejectsUnknown_shape (fun _ _ => ⟨_, rfl⟩),
   rejectsUnknown_shape (fun _ _ => ⟨_, rfl⟩),
   rejectsUnknown_shape (fun _ _ => ⟨_, rfl⟩),
   rejectsUnknown_shape (fun _ _ => ⟨_, rfl⟩),
   rejectsUnknown_shape (fun _ _ => ⟨_, rfl⟩),
   rejectsUnknown_shape (fun _ _ => ⟨_, rfl⟩),
   rejectsUnknown_shape (fun _ _ => ⟨_, rfl⟩),
   rejectsUnknown_shape (fun _ _ => ⟨_, rfl⟩),
   rejectsUnknown_shape (fun _ _ => ⟨_, rfl⟩),
   rejectsUnknown_shape (fun _ _ => ⟨_, rfl⟩),
   rejectsUnknown_shape (fun _ _ => ⟨_, rfl⟩),
   rejectsUnknown_shape (fun _ _ => ⟨_, rfl⟩)⟩

/-- Witness for C1: each of the twelve entity validators rejects the
concrete table `{bogus = 1}` with an `UnknownField` violation at `bogus`. -/
theorem closed_world_unknown_field_witness :
    (∃ es, validateChannelInlineTable [] (.table [("bogus", RawValue.int 1)]) = .err es ∧
      (⟨["bogus"], ViolationKind.UnknownField⟩ : Violation) ∈ es) ∧
    (∃ es, validateProject [] (.table [("bogus", RawValue.int 1)]) = .err es ∧
      (⟨["bogus"], ViolationKind.UnknownField⟩ : Violation) ∈ es) ∧
    (∃ es, validateMatchspecTable [] (.table [("bogus", RawValue.int 1)]) = .err es ∧
      (⟨["bogus"], ViolationKind.UnknownField⟩ : Violation) ∈ es) ∧
    (∃ es, validatePyPIRequirementTable [] (.table [("bogus", RawValue.int 1)]) = .err es ∧
      (⟨["bogus"], ViolationKind.UnknownField⟩ : Violation) ∈ es) ∧
    (∃ es, validateTaskInlineTable [] (.table [("bogus", RawValue.int 1)]) = .err es ∧
      (⟨["bogus"], ViolationKind.UnknownField⟩ : Violation) ∈ es) ∧
    (∃ es, validateLibcFamily [] (.table [("bogus", RawValue.int 1)]) = .err es ∧
      (⟨["bogus"], ViolationKind.UnknownField⟩ : Violation) ∈ es) ∧
    (∃ es, validateSystemRequirements [] (.table [("bogus", RawValue.int 1)]) = .err es ∧
      (⟨["bogus"], ViolationKind.UnknownField⟩ : Violation) ∈ es) ∧
    (∃ es, validateEnvironment [] (.table [("bogus", RawValue.int 1)]) = .err es ∧
      (⟨["bogus"], ViolationKind.UnknownField⟩ : Violation) ∈ es) ∧
    (∃ es, validateActivation [] (.table [("bogus", RawValue.int 1)]) = .err es ∧
      (⟨["bogus"], ViolationKind.UnknownField⟩ : Violation) ∈ es) ∧
    (∃ es, validateTarget [] (.table [("bogus", RawValue.int 1)]) = .err es ∧
      (⟨["bogus"], ViolationKind.UnknownField⟩ : Violation) ∈ es) ∧
    (∃ es, validateFeature [] (.table [("bogus", RawValue.int 1)]) = .err es ∧
      (⟨["bogus"], ViolationKind.UnknownField⟩ : Violation) ∈ es) ∧
    (∃ es, validateBaseManifest [] (.table [("bogus", RawValue.int 1)]) = .err es ∧
      (⟨["bogus"], ViolationKind.UnknownField⟩ : Violation) ∈ es) :=
  ⟨closed_world_unknown_field.1 [] _ "bogus" (RawValue.int 1) (by simp) (by decide),
   closed_world_unknown_field.2.1 [] _ "bogus" (RawValue.int 1) (by simp) (by decide),
   closed_world_unknown_field.2.2.1 [] _ "bogus" (RawValue.int 1) (by simp) (by decide),
   closed_world_unknown_field.2.2.2.1 [] _ "bogus" (RawValue.int 1) (by simp) (by decide),
   closed_world_unknown_field.2.2.2.2.1 [] _ "bogus" (RawValue.int 1) (by simp) (by decide),
   closed_world_unknown_field.2.2.2.2.2.1 [] _ "bogus" (RawValue.int 1) (by simp) (by decide),
   closed_world_unknown_field.2.2.2.2.2.2.1 [] _ "bogus" (RawValue.int 1) (by simp) (by decide),
   closed_world_unknown_field.2.2.2.2.2.2.2.1 [] _ "bogus" (RawValue.int 1) (by simp) (by decide),
   closed_world_unknown_field.2.2.2.2.2.2.2.2.1 [] _ "bogus" (RawValue.int 1) (by simp) (by decide),
   closed_world_unknown_field.2.2.2.2.2.2.2.2.2.1 [] _ "bogus" (RawValue.int 1) (by simp) (by decide),
   closed_world_unknown_field.2.2.2.2.2.2.2.2.2.2.1 [] _ "bogus" (RawValue.int 1) (by simp) (by decide),
   closed_world_unknown_field.2.2.2.2.2.2.2.2.2.2.2 [] _ "bogus" (RawValue.int 1) (by simp) (by decide)⟩

/-- Claim C2: validation aggregates all independent field-level problems:
the violation list is at least as long as the number of undeclared keys
plus the number of absent required fields (for `Project` and for the root
manifest), a successful validation implies there were no such problems,
and the result is always either a fully constructed manifest or a
violation list, never a partial value. -/
theorem violation_aggregation :
    (∀ path kvs, (validateProject path (.table kvs)).errors.length ≥
        unknownCount projectFields kvs + missingProjectCount kvs) ∧
    (∀ path kvs, (validateBaseManifest path (.table kvs)).errors.length ≥
        unknownCount baseManifestFields kvs + missingManifestCount kvs) ∧
    (∀ path kvs m, validateProject path (.table kvs) = .ok m →
        unknownCount projectFields kvs = 0 ∧ missingProjectCount kvs = 0) ∧
    (∀ path kvs m, validateBaseManifest path (.table kvs) = .ok m →
        unknownCount baseManifestFields kvs = 0 ∧ missingManifestCount kvs = 0) ∧
    (∀ path r, (∃ m, validateBaseManifest path r = .ok m) ∨
        (∃ es, validateBaseManifest path r = .err es)) := by
  refine ⟨validateProject_errors_length, validateBaseManifest_errors_length, ?_, ?_, ?_⟩
  · intro path kvs m h
    have hb := validateProject_errors_length path kvs
    rw [errors_nil_of_ok h] at hb
    simp only [List.length_nil] at hb
    omega
  · intro path kvs m h
    have hb := validateBaseManifest_errors_length path kvs
    rw [errors_nil_of_ok h] at hb
    simp only [List.length_nil] at hb
    omega
  · intro path r
    cases h : validateBaseManifest path r with
    | ok m => exact Or.inl ⟨m, rfl⟩
    | err es => exact Or.inr ⟨es, rfl⟩

/-- Witness for C2: the bounds and case split instantiated on concrete
inputs: a table with one unknown key and all required fields absent, the
valid demo project, and the demo manifest document. -/
theorem violation_aggregation_witness :
    ((validateProject [] (.table [("bogus", RawValue.int 1)])).errors.length ≥
      unknownCount projectFields [("bogus", RawValue.int 1)] +
      missingProjectCount [("bogus", RawValue.int 1)]) ∧
    ((validateBaseManifest [] (.table [("bogus", RawValue.int 1)])).errors.length ≥
      unknownCount baseManifestFields [("bogus", RawValue.int 1)] +
      missingManifestCount [("bogus", RawValue.int 1)]) ∧
    (unknownCount projectFields [("name", RawValue.str "w"),
        ("platforms", RawValue.list [RawValue.str "linux-64"])] = 0 ∧
      missingProjectCount [("name", RawValue.str "w"),
        ("platforms", RawValue.list [RawValue.str "linux-64"])] = 0) ∧
    ((∃ m, validateBaseManifest [] (.table []) = .ok m) ∨
      (∃ es, validateBaseManifest [] (.table []) = .err es)) :=
  ⟨violation_aggregation.1 [] _,
   violation_aggregation.2.1 [] _,
   violation_aggregation.2.2.1 [] _
     ⟨"w", none, none, none, none, ["linux-64"], none, none, none, none, none, none⟩
     (by decide),
   violation_aggregation.2.2.2.2 [] _⟩

/-- Claim C4 (code slip): the source annotates `channels` as
`list[Channel]` (the spec calls it required) but passes `None` as the
field default, so validating a project that supplies `name` and
`platforms` while omitting `channels` succeeds with `channels` absent
instead of failing with a `MissingField` violation. -/
theorem channels_field_not_required :
    validateProject [] (.table [("name", RawValue.str "demo"),
      ("platforms", RawValue.list [RawValue.str "linux-64"])]) =
    .ok ⟨"demo", none, none, none, none, ["linux-64"],
      none, none, none, none, none, none⟩ := by
  decide

/-- Claim C5: validating `{"project": {"platforms": ["linux-64"]}}` fails
with exactly one violation: a `MissingField` at path `project.name`. -/
theorem missing_name_single_violation :
    validateBaseManifest []
      (.table [("project", .table [("platforms", RawValue.list [RawValue.str "linux-64"])])]) =
    .err [⟨["project", "name"], ViolationKind.MissingField⟩] := by
  decide

/-- Claim C3: each aliased field (`host_dependencies`,
`build_dependencies`, `pypi_dependencies`, `system_requirements`,
`solve_group`) is addressed exclusively by its hyphenated external
spelling: a table using the hyphenated key validates (given a valid
value), while the underscored internal spelling is rejected as an
`UnknownField`. -/
theorem alias_hyphen_exclusive :
    (∀ path v, (vDict vMatchSpec (path ++ ["host-dependencies"]) v).isOk = true →
      (validateTarget path (.table [("host-dependencies", v)])).isOk = true) ∧
    (∀ path v, ∃ es, validateTarget path (.table [("host_dependencies", v)]) = .err es ∧
      (⟨path ++ ["host_dependencies"], ViolationKind.UnknownField⟩ : Violation) ∈ es) ∧
    (∀ path v, (vDict vMatchSpec (path ++ ["build-dependencies"]) v).isOk = true →
      (validateTarget path (.table [("build-dependencies", v)])).isOk = true) ∧
    (∀ path v, ∃ es, validateTarget path (.table [("build_dependencies", v)]) = .err es ∧
      (⟨path ++ ["build_dependencies"], ViolationKind.UnknownField⟩ : Violation) ∈ es) ∧
    (∀ path v, (vDict vPyPIRequirement (path ++ ["pypi-dependencies"]) v).isOk = true →
      (validateTarget path (.table [("pypi-dependencies", v)])).isOk = true) ∧
    (∀ path v, ∃ es, validateTarget path (.table [("pypi_dependencies", v)]) = .err es ∧
      (⟨path ++ ["pypi_dependencies"], ViolationKind.UnknownField⟩ : Violation) ∈ es) ∧
    (∀ path v, (validateSystemRequirements (path ++ ["system-requirements"]) v).isOk = true →
      (validateFeature path (.table [("system-requirements", v)])).isOk = true) ∧
    (∀ path v, ∃ es, validateFeature path (.table [("system_requirements", v)]) = .err es ∧
      (⟨path ++ ["system_requirements"], ViolationKind.UnknownField⟩ : Violation) ∈ es) ∧
    (∀ path v, (vNonEmptyStr (path ++ ["solve-group"]) v).isOk = true →
      (validateEnvironment path (.table [("solve-group", v)])).isOk = true) ∧
    (∀ path v, ∃ es, validateEnvironment path (.table [("solve_group", v)]) = .err es ∧
      (⟨path ++ ["solve_group"], ViolationKind.UnknownField⟩ : Violation) ∈ es) := by
  have htgt : rejectsUnknown validateTarget targetFields :=
    rejectsUnknown_shape (fun _ _ => ⟨_, rfl⟩)
  have hfeat : rejectsUnknown validateFeature featureFields :=
    rejectsUnknown_shape (fun _ _ => ⟨_, rfl⟩)
  have henv : rejectsUnknown validateEnvironment environmentFields :=
    rejectsUnknown_shape (fun _ _ => ⟨_, rfl⟩)
  refine ⟨?_, ?_, ?_, ?_, ?_, ?_, ?_, ?_, ?_, ?_⟩
  · intro path v h
    rcases hv : vDict vMatchSpec (path ++ ["host-dependencies"]) v with a | es
    · simp [validateTarget, targetFields, optField, lookupKey, hv,
        Validated.vseq, Validated.vmap, Validated.withErrors]
    · rw [hv] at h
      simp at h
  · intro path v
    exact htgt path _ "host_dependencies" v (by simp) (by decide)
  · intro path v h
    rcases hv : vDict vMatchSpec (path ++ ["build-dependencies"]) v with a | es
    · simp [validateTarget, targetFields, optField, lookupKey, hv,
        Validated.vseq, Validated.vmap, Validated.withErrors]
    · rw [hv] at h
      simp at h
  · intro path v
    exact htgt path _ "build_dependencies" v (by simp) (by decide)
  · intro path v h
    rcases hv : vDict vPyPIRequirement (path ++ ["pypi-dependencies"]) v with a | es
    · simp [validateTarget, targetFields, optField, lookupKey, hv,
        Validated.vseq, Validated.vmap, Validated.withErrors]
    · rw [hv] at h
      simp at h
  · intro path v
    exact htgt path _ "pypi_dependencies" v (by simp) (by decide)
  · intro path v h
    rcases hv : validateSystemRequirements (path ++ ["system-requirements"]) v with a | es
    · simp [validateFeature, featureFields, optField, lookupKey, hv,
        Validated.vseq, Validated.vmap, Validated.withErrors]
    · rw [hv] at h
      simp at h
  · intro path v
    exact hfeat path _ "system_requirements" v (by simp) (by decide)
  · intro path v h
    rcases hv : vNonEmptyStr (path ++ ["solve-group"]) v with a | es
    · simp [validateEnvironment, environmentFields, optField, lookupKey, hv,
        Validated.vseq, Validated.vmap, Validated.withErrors]
    · rw [hv] at h
      simp at h
  · intro path v
    exact henv path _ "solve_group" v (by simp) (by decide)

/-- Witness for C3: for each aliased field, a concrete hyphen-spelled
input validates and the underscored spelling is rejected as an
`UnknownField`. -/
theorem alias_hyphen_exclusive_witness :
    (validateTarget [] (.table [("host-dependencies", .table [])])).isOk = true ∧
    (∃ es, validateTarget [] (.table [("host_dependencies", .table [])]) = .err es ∧
      (⟨["host_dependencies"], ViolationKind.UnknownField⟩ : Violation) ∈ es) ∧
    (validateTarget [] (.table [("build-dependencies", .table [])])).isOk = true ∧
    (∃ es, validateTarget [] (.table [("build_dependencies", .table [])]) = .err es ∧
      (⟨["build_dependencies"], ViolationKind.UnknownField⟩ : Violation) ∈ es) ∧
    (validateTarget [] (.table [("pypi-dependencies", .table [])])).isOk = true ∧
    (∃ es, validateTarget [] (.table [("pypi_dependencies", .table [])]) = .err es ∧
      (⟨["pypi_dependencies"], ViolationKind.UnknownField⟩ : Violation) ∈ es) ∧
    (validateFeature [] (.table [("system-requirements", .table [])])).isOk = true ∧
    (∃ es, validateFeature [] (.table [("system_requirements", .table [])]) = .err es ∧
      (⟨["system_requirements"], ViolationKind.UnknownField⟩ : Violation) ∈ es) ∧
    (validateEnvironment [] (.table [("solve-group", .str "grp")])).isOk = true ∧
    (∃ es, validateEnvironment [] (.table [("solve_group", .str "grp")]) = .err es ∧
      (⟨["solve_group"], ViolationKind.UnknownField⟩ : Violation) ∈ es) :=
  ⟨alias_hyphen_exclusive.1 [] _ (by decide),
   alias_hyphen_exclusive.2.1 [] _,
   alias_hyphen_exclusive.2.2.1 [] _ (by decide),
   alias_hyphen_exclusive.2.2.2.1 [] _,
   alias_hyphen_exclusive.2.2.2.2.1 [] _ (by decide),
   alias_hyphen_exclusive.2.2.2.2.2.1 [] _,
   alias_hyphen_exclusive.2.2.2.2.2.2.1 [] _ (by decide),
   alias_hyphen_exclusive.2.2.2.2.2.2.2.1 [] _,
   alias_hyphen_exclusive.2.2.2.2.2.2.2.2.1 [] _ (by decide),
   alias_hyphen_exclusive.2.2.2.2.2.2.2.2.2 [] _⟩

/-- Counterexample to C6 as stated: the empty string contains no
backslash, yet the `PathNoBackslash` pattern `^[^\x5c]+$` requires at
least one character, so the constraint rejects the empty string with a
`ConstraintViolation`. -/
theorem path_constraint_rejects_empty_string :
    noBackslash "" = true ∧
    vPathNoBackslash ["project", "license_file"] (.str "") =
      .err [⟨["project", "license_file"], ViolationKind.ConstraintViolation⟩] := by
  decide

/-- Claim C6 (amended): the path constraint accepts exactly the nonempty
strings containing no backslash; the empty string and any string with a
backslash are rejected with a `ConstraintViolation`. -/
theorem path_constraint_characterization (path : List String) (s : String) :
    ((s ≠ "" ∧ noBackslash s = true) → vPathNoBackslash path (.str s) = .ok s) ∧
    ((s = "" ∨ noBackslash s = false) → vPathNoBackslash path (.str s) =
      .err [⟨path, ViolationKind.ConstraintViolation⟩]) := by
  constructor
  · intro h
    simp [vPathNoBackslash, h.1, h.2]
  · intro h
    have hcond : ¬ (s ≠ "" ∧ noBackslash s = true) := by
      rcases h with rfl | hb
      · simp
      · simp [hb]
    simp only [vPathNoBackslash]
    rw [if_neg hcond]

/-- Witness for C6 (amended): `a/b` is accepted and `a\b` is rejected. -/
theorem path_constraint_characterization_witness :
    vPathNoBackslash ["cwd"] (.str "a/b") = .ok "a/b" ∧
    vPathNoBackslash ["cwd"] (.str "a\\b") =
      .err [⟨["cwd"], ViolationKind.ConstraintViolation⟩] :=
  ⟨(path_constraint_characterization ["cwd"] "a/b").1 (by decide),
   (path_constraint_characterization ["cwd"] "a\\b").2 (by decide)⟩

/-- Counterexample to C7 as stated: `linux` and `macos` are validated with
`PositiveFloat | NonEmptyStr`, so the floats `0.0` and `-1.0` are
rejected, not accepted. -/
theorem system_requirements_rejects_nonpositive_float :
    (validateSystemRequirements [] (.table [("linux", RawValue.float 0)])).isOk = false ∧
    (validateSystemRequirements [] (.table [("macos", RawValue.float (-1))])).isOk = false := by
  decide

/-- Claim C7 (amended): every field of `SystemRequirements` is optional
(the empty table validates with all six fields absent), and `linux` and
`macos` accept exactly the strictly positive floats and the nonempty
strings: a float `≤ 0` is rejected. -/
theorem system_requirements_field_values :
    (validateSystemRequirements [] (.table []) = .ok ⟨none, none, none, none, none, none⟩) ∧
    (∀ path q, 0 < q →
      validateSystemRequirements path (.table [("linux", RawValue.float q)]) =
        .ok ⟨some (.float q), none, none, none, none, none⟩) ∧
    (∀ path q, q ≤ 0 →
      (validateSystemRequirements path (.table [("linux", RawValue.float q)])).isOk = false) ∧
    (∀ path s, s ≠ "" →
      validateSystemRequirements path (.table [("linux", RawValue.str s)]) =
        .ok ⟨some (.str s), none, none, none, none, none⟩) ∧
    (∀ path q, 0 < q →
      validateSystemRequirements path (.table [("macos", RawValue.float q)]) =
        .ok ⟨none, none, none, none, none, some (.float q)⟩) ∧
    (∀ path q, q ≤ 0 →
      (validateSystemRequirements path (.table [("macos", RawValue.float q)])).isOk = false) ∧
    (∀ path s, s ≠ "" →
      validateSystemRequirements path (.table [("macos", RawValue.str s)]) =
        .ok ⟨none, none, none, none, none, some (.str s)⟩) := by
  refine ⟨by decide, ?_, ?_, ?_, ?_, ?_, ?_⟩
  · intro path q hq
    simp [validateSystemRequirements, systemRequirementsFields, optField, lookupKey,
      vPosFloatOrStr, hq, Validated.vseq, Validated.vmap, Validated.withErrors]
  · intro path q hq
    have hq' : ¬ (0 : Rat) < q := not_lt.mpr hq
    simp [validateSystemRequirements, systemRequirementsFields, optField, lookupKey,
      vPosFloatOrStr, hq', Validated.vseq, Validated.vmap, Validated.withErrors,
      Validated.isOk]
  · intro path s hs
    simp [validateSystemRequirements, systemRequirementsFields, optField, lookupKey,
      vPosFloatOrStr, hs, Validated.vseq, Validated.vmap, Validated.withErrors]
  · intro path q hq
    simp [validateSystemRequirements, systemRequirementsFields, optField, lookupKey,
      vPosFloatOrStr, hq, Validated.vseq, Validated.vmap, Validated.withErrors]
  · intro path q hq
    have hq' : ¬ (0 : Rat) < q := not_lt.mpr hq
    simp [validateSystemRequirements, systemRequirementsFields, optField, lookupKey,
      vPosFloatOrStr, hq', Validated.vseq, Validated.vmap, Validated.withErrors,
      Validated.isOk]
  · intro path s hs
    simp [validateSystemRequirements, systemRequirementsFields, optField, lookupKey,
      vPosFloatOrStr, hs, Validated.vseq, Validated.vmap, Validated.withErrors]

/-- Witness for C7 (amended): concrete instances of each part. -/
theorem system_requirements_field_values_witness :
    (validateSystemRequirements [] (.table [("linux", RawValue.float 1)]) =
      .ok ⟨some (.float 1), none, none, none, none, none⟩) ∧
    ((validateSystemRequirements [] (.table [("linux", RawValue.float 0)])).isOk = false) ∧
    (validateSystemRequirements [] (.table [("linux", RawValue.str "5.10")]) =
      .ok ⟨some (.str "5.10"), none, none, none, none, none⟩) ∧
    (validateSystemRequirements [] (.table [("macos", RawValue.float 2)]) =
      .ok ⟨none, none, none, none, none, some (.float 2)⟩) ∧
    ((validateSystemRequirements [] (.table [("macos", RawValue.float 0)])).isOk = false) ∧
    (validateSystemRequirements [] (.table [("macos", RawValue.str "13.0")]) =
      .ok ⟨none, none, none, none, none, some (.str "13.0")⟩) :=
  ⟨system_requirements_field_values.2.1 [] 1 (by decide),
   system_requirements_field_values.2.2.1 [] 0 (by decide),
   system_requirements_field_values.2.2.2.1 [] "5.10" (by decide),
   system_requirements_field_values.2.2.2.2.1 [] 2 (by decide),
   system_requirements_field_values.2.2.2.2.2.1 [] 0 (by decide),
   system_requirements_field_values.2.2.2.2.2.2 [] "13.0" (by decide)⟩

/-- Claim C8: an optional field whose key is absent resolves to the
distinguished absent state `none` (for every optional field of every
entity, all of which go through `optField`); the demo document validates
with every optional manifest field absent; and the absent state differs
from the empty collection. -/
theorem optional_fields_absent_state :
    (∀ {α : Type} (path : List String) (kvs : List (String × RawValue)) (name : String)
      (f : List String → RawValue → Validated α),
      lookupKey kvs name = none → optField path kvs name f = .ok none) ∧
    validateBaseManifest [] (.table [("project", .table [("name", RawValue.str "demo"),
        ("platforms", RawValue.list [RawValue.str "linux-64"]),
        ("channels", RawValue.list [RawValue.str "conda-forge"])])]) =
      .ok ⟨⟨"demo", none, none, none, some [Channel.str "conda-forge"], ["linux-64"],
        none, none, none, none, none, none⟩,
        none, none, none, none, none, none, none, none, none, none⟩ ∧
    (none : Option (List (String × MatchSpec))) ≠ some [] := by
  refine ⟨?_, by decide, by simp⟩
  intro α path kvs name f h
  exact optField_of_lookup_none h

/-- Witness for C8: the `dependencies` field of an empty table resolves to
the absent state. -/
theorem optional_fields_absent_state_witness :
    optField [] [] "dependencies" (vDict vMatchSpec) = .ok none :=
  optional_fields_absent_state.1 [] [] "dependencies" (vDict vMatchSpec) rfl

/-- Claim C9: round-trip: any manifest produced by a successful validation
serializes back to a raw document that validates again to an equal
manifest. -/
theorem manifest_roundtrip (path : List String) (d : RawValue) (m : BaseManifest)
    (h : validateBaseManifest path d = .ok m) :
    validateBaseManifest path m.dump = .ok m :=
  validateBaseManifest_complete (validateBaseManifest_sound h) path

/-- Witness for C9: a concrete manifest with a dependency mapping
round-trips. -/
theorem manifest_roundtrip_witness :
    validateBaseManifest []
      (BaseManifest.dump ⟨⟨"rt", none, none, none, none, ["osx-arm64"],
        none, none, none, none, none, none⟩,
        some [("python", MatchSpec.str "3.11")],
        none, none, none, none, none, none, none, none, none⟩) =
    .ok ⟨⟨"rt", none, none, none, none, ["osx-arm64"],
      none, none, none, none, none, none⟩,
      some [("python", MatchSpec.str "3.11")],
      none, none, none, none, none, none, none, none, none⟩ :=
  manifest_roundtrip []
    (.table [("project", .table [("name", RawValue.str "rt"),
        ("platforms", RawValue.list [RawValue.str "osx-arm64"])]),
      ("dependencies", .table [("python", RawValue.str "3.11")])])
    _ (by decide)

/-- Claim C10: the url-shaped fields accept exactly the absolute
HTTP/HTTPS URL strings; the permissive `GitUrl` pattern (defined in the
source but applied to no field) matches `git@github.com:owner/repo.git`,
yet `repository` rejects that string with a `ConstraintViolation`. -/
theorem url_fields_http_only :
    (∀ path s, isHttpUrl s = true → vHttpUrl path (.str s) = .ok s) ∧
    (∀ path s, isHttpUrl s = false → vHttpUrl path (.str s) =
      .err [⟨path, ViolationKind.ConstraintViolation⟩]) ∧
    gitUrlMatch "git@github.com:owner/repo.git" ∧
    isHttpUrl "git@github.com:owner/repo.git" = false ∧
    validateProject [] (.table [("name", RawValue.str "x"),
      ("platforms", RawValue.list [RawValue.str "linux-64"]),
      ("repository", RawValue.str "git@github.com:owner/repo.git")]) =
      .err [⟨["repository"], ViolationKind.ConstraintViolation⟩] := by
  refine ⟨?_, ?_, ?_, by decide, by decide⟩
  · intro path s hs
    simp [vHttpUrl, hs]
  · intro path s hs
    simp [vHttpUrl, hs]
  · exact ⟨"", "git@github.com", ":", "owner/repo.git", "",
      by decide, Or.inr ⟨"github.com", by decide, by decide, by decide⟩,
      Or.inl rfl, by decide, by decide⟩

/-- Witness for C10: a concrete HTTPS URL is accepted and a concrete
non-URL string is rejected. -/
theorem url_fields_http_only_witness :
    vHttpUrl ["homepage"] (.str "https://example.com/x") = .ok "https://example.com/x" ∧
    vHttpUrl ["homepage"] (.str "notaurl") =
      .err [⟨["homepage"], ViolationKind.ConstraintViolation⟩] :=
  ⟨url_fields_http_only.1 ["homepage"] "https://example.com/x" (by decide),
   url_fields_http_only.2.1 ["homepage"] "notaurl" (by decide)⟩
